import Mathlib

/-!
The configuration resolver and the logging facility of the rate-limit gateway.

A shallow embedding of `internal/config/config.go` and
`internal/observability/logger.go`, with the properties of their specification
stated and proved over it.

Conventions of the embedding.

* A Go `string` is a Lean `String`; `len(s)` is its UTF-8 byte size.
* A Go `int` is a Lean `Int` (the parsers enforce the 64-bit range where Go does);
  a `time.Duration` is an `Int` counting nanoseconds.
* A Go result pair `(value, error)` is a Lean pair whose second component is
  `none` for a `nil` error; a `*Config` that may be `nil` is an `Option Config`.
* The process environment is an explicit argument, and so are the package
  state of zerolog and the clock reading of a call.
* A method with a `*Logger` receiver is embedded on the `Logger` value, and
  again on a pointer into a `Memory` of `Logger` objects where the identity of
  the receiver matters.
* The standard-library and zerolog functions that the two files call
  (`os.Getenv`, `strconv.Atoi`, `time.ParseDuration`, `fmt.Sprintf`,
  `zerolog.ParseLevel`, the zerolog logger) are embedded next to them, each in a
  namespace named after its Go package.
-/

/-! ## Package `os` -/

namespace os

/-- The process environment: `none` for a variable that is not set, `some v` for
one that is set to `v` (possibly the empty string). -/
abbrev Environ := String → Option String

/-- The function `os.Getenv`: the value of the variable, which is empty when the
variable is not present. -/
def Getenv (env : Environ) (key : String) : String :=
  (env key).getD ""

/-- The standard streams a writer can be bound to. -/
inductive File where
  | Stdout
  | Stderr
  deriving DecidableEq, Repr

end os

/-! ## Package `strconv` (base 10 only) -/

namespace strconv

/-- The two causes a `*NumError` can carry. -/
inductive NumError where
  | ErrSyntax
  | ErrRange
  deriving DecidableEq, Repr

/-- The size of an `int` in bits (a 64-bit platform). -/
def intSize : Nat := 64

/-- The test `'0' <= c && c <= '9'`. -/
def isDigit (c : Char) : Bool :=
  decide ('0' ≤ c) && decide (c ≤ '9')

/-- The value `c - '0'` of a digit. -/
def digitVal (c : Char) : Nat :=
  c.toNat - '0'.toNat

/-- The loop of the fast path of `Atoi`: `ch -= '0'; if ch > 9 ..; n = n*10 + int(ch)`.
The fast path is entered with at most 18 bytes, so `n` stays below `10^18` and
the machine addition cannot wrap. -/
def atoiFast : List Char → Nat → Nat × Option NumError
  | [], n => (n, none)
  | ch :: rest, n =>
    if isDigit ch then atoiFast rest (n * 10 + digitVal ch)
    else (0, some NumError.ErrSyntax)

/-- The largest `uint64`. -/
def maxUint64 : Nat := 2 ^ 64 - 1

/-- The digit loop of `ParseUint` for base 10. A byte that is not a decimal digit
is a syntax error (a letter has a digit value of at least 10, the base); the two
overflow tests are those of the source, with the `uint64` addition wrapping. -/
def parseUintLoop (maxVal : Nat) : List Char → Nat → Nat × Option NumError
  | [], n => (n, none)
  | c :: rest, n =>
    if !isDigit c then (0, some NumError.ErrSyntax)
    else if n ≥ maxUint64 / 10 + 1 then (maxVal, some NumError.ErrRange)
    else
      let n10 := n * 10
      let n1 := (n10 + digitVal c) % 2 ^ 64
      if n1 < n10 ∨ n1 > maxVal then (maxVal, some NumError.ErrRange)
      else parseUintLoop maxVal rest n1

/-- The call `ParseUint(s, 10, bitSize)` for `bitSize` 0 (the size of `int`) or
a size up to 64. -/
def ParseUint (s : String) (bitSize : Nat) : Nat × Option NumError :=
  if s = "" then (0, some NumError.ErrSyntax)
  else
    let bits := if bitSize = 0 then intSize else bitSize
    parseUintLoop (2 ^ bits - 1) s.data 0

/-- The call `ParseInt(s, 10, bitSize)`. -/
def ParseInt (s : String) (bitSize : Nat) : Int × Option NumError :=
  if s = "" then (0, some NumError.ErrSyntax)
  else
    let neg := decide (s.data.head? = some '-')
    let signed := decide (s.data.head? = some '+') || neg
    let s1 := if signed then String.mk s.data.tail else s
    let r := ParseUint s1 bitSize
    if r.2 = some NumError.ErrSyntax then (0, r.2)
    else
      let bits := if bitSize = 0 then intSize else bitSize
      let cutoff : Nat := 2 ^ (bits - 1)
      if !neg ∧ r.1 ≥ cutoff then ((cutoff : Int) - 1, some NumError.ErrRange)
      else if neg ∧ r.1 > cutoff then (-(cutoff : Int), some NumError.ErrRange)
      else (if neg then -(r.1 : Int) else (r.1 : Int), none)

/-- The function `strconv.Atoi`: the fast path for short inputs, `ParseInt(s, 10, 0)`
for the rest. -/
def Atoi (s : String) : Int × Option NumError :=
  let sLen := s.utf8ByteSize
  if (intSize = 32 ∧ 0 < sLen ∧ sLen < 10) ∨ (intSize = 64 ∧ 0 < sLen ∧ sLen < 19) then
    match s.data with
    | [] => (0, some NumError.ErrSyntax)
    | c :: rest =>
      let signed := decide (c = '-') || decide (c = '+')
      if signed ∧ rest = [] then (0, some NumError.ErrSyntax)
      else
        let r := atoiFast (if signed then rest else c :: rest) 0
        if r.2 ≠ none then (0, r.2)
        else (if c = '-' then -(r.1 : Int) else (r.1 : Int), none)
  else ParseInt s 0

end strconv

/-! ## Package `time` -/

namespace time

/-- A `time.Duration`: a count of nanoseconds. -/
abbrev Duration := Int

def Nanosecond : Duration := 1
def Microsecond : Duration := 1000 * Nanosecond
def Millisecond : Duration := 1000 * Microsecond
def Second : Duration := 1000 * Millisecond
def Minute : Duration := 60 * Second
def Hour : Duration := 60 * Minute

/-- The layout `time.RFC3339`. -/
def RFC3339 : String := "2006-01-02T15:04:05Z07:00"

/-- The layout `time.RFC3339Nano`. -/
def RFC3339Nano : String := "2006-01-02T15:04:05.999999999Z07:00"

/-- The errors of `ParseDuration`, by the message they carry. -/
inductive DurationError where
  | invalid
  | missingUnit
  | unknownUnit (u : String)
  deriving DecidableEq, Repr

/-- The table `unitMap`. -/
def unitMap (u : String) : Option Nat :=
  if u = "ns" then some 1
  else if u = "us" then some 1000
  else if u = "µs" then some 1000
  else if u = "μs" then some 1000
  else if u = "ms" then some 1000000
  else if u = "s" then some 1000000000
  else if u = "m" then some 60000000000
  else if u = "h" then some 3600000000000
  else none

/-- The function `leadingInt`: consumes the leading `[0-9]*`; `none` is
`errLeadingInt` (overflow past `1<<63`). -/
def leadingInt : List Char → Nat → Option (Nat × List Char)
  | [], x => some (x, [])
  | c :: rest, x =>
    if c < '0' ∨ c > '9' then some (x, c :: rest)
    else if x > 2 ^ 63 / 10 then none
    else
      let x1 := x * 10 + c.toNat - '0'.toNat
      if x1 > 2 ^ 63 then none else leadingInt rest x1

/-- The function `leadingFraction`: consumes the leading `[0-9]*` and stops
accumulating precision on overflow. The scale is a power of ten of at most 19
digits, which a `float64` holds exactly, so it is kept as a natural number. -/
def leadingFraction : List Char → Nat → Nat → Bool → Nat × Nat × List Char
  | [], x, scale, _ => (x, scale, [])
  | c :: rest, x, scale, overflow =>
    if c < '0' ∨ c > '9' then (x, scale, c :: rest)
    else if overflow then leadingFraction rest x scale overflow
    else if x > (2 ^ 63 - 1) / 10 then leadingFraction rest x scale true
    else
      let y := x * 10 + c.toNat - '0'.toNat
      if y > 2 ^ 63 then leadingFraction rest x scale true
      else leadingFraction rest y (scale * 10) false

/-- The floating-point expression `uint64(float64(f) * (float64(unit) / scale))`
of `ParseDuration`, as a function of `f`, `unit` and `scale`. Its rounding is not
modelled: every definition that reaches it takes it as an argument. -/
abbrev FracProduct := Nat → Nat → Nat → Nat

/-- The exact quotient `f * unit / scale`, truncated: the value that the
floating-point expression approximates. Used where a concrete `FracProduct` is
needed. -/
def exactFrac : FracProduct := fun f unit scale => f * unit / scale

/-- The outcome of the main loop of `ParseDuration`. -/
inductive Loop where
  | done (d : Nat)
  | failed (e : DurationError)
  | outOfFuel
  deriving DecidableEq, Repr

/-- The characters of the unit: up to the next `.` or digit. -/
def unitSpan (s : List Char) : List Char × List Char :=
  s.span fun c => !(decide (c = '.') || (decide ('0' ≤ c) && decide (c ≤ '9')))

/-- The loop `for s != ""` of `ParseDuration`, one `[0-9]*(\.[0-9]*)?[a-z]+` group
per round; `d` is the running total. Every round consumes a character, so
`fuel = len(s)` rounds are enough (`parseLoop_enough_fuel`). -/
def parseLoop (fp : FracProduct) : Nat → List Char → Nat → Loop
  | _, [], d => Loop.done d
  | 0, _ :: _, _ => Loop.outOfFuel
  | fuel + 1, c :: rest, d =>
    if !(decide (c = '.') || (decide ('0' ≤ c) && decide (c ≤ '9'))) then
      Loop.failed DurationError.invalid
    else
      match leadingInt (c :: rest) 0 with
      | none => Loop.failed DurationError.invalid
      | some (v, s1) =>
        let pre := decide ((c :: rest).length ≠ s1.length)
        let dot := decide (s1.head? = some '.')
        let frac : Nat × Nat × List Char :=
          if dot then leadingFraction s1.tail 0 1 false else (0, 1, s1)
        let post := dot && decide (s1.tail.length ≠ frac.2.2.length)
        if !pre ∧ !post then Loop.failed DurationError.invalid
        else
          let u := unitSpan frac.2.2
          if u.1 = [] then Loop.failed DurationError.missingUnit
          else
            match unitMap (String.mk u.1) with
            | none => Loop.failed (DurationError.unknownUnit (String.mk u.1))
            | some unit =>
              if v > 2 ^ 63 / unit then Loop.failed DurationError.invalid
              else
                let v1 := v * unit
                let v2 := if frac.1 > 0 then (v1 + fp frac.1 unit frac.2.1 % 2 ^ 64) % 2 ^ 64 else v1
                if frac.1 > 0 ∧ v2 > 2 ^ 63 then Loop.failed DurationError.invalid
                else
                  let d1 := (d + v2) % 2 ^ 64
                  if d1 > 2 ^ 63 then Loop.failed DurationError.invalid
                  else parseLoop fp fuel u.2 d1

/-- The function `time.ParseDuration`. -/
def ParseDuration (fp : FracProduct) (s : String) : Duration × Option DurationError :=
  let neg := decide (s.data.head? = some '-')
  let signed := neg || decide (s.data.head? = some '+')
  let s1 := if signed then s.data.tail else s.data
  if s1 = ['0'] then (0, none)
  else if s1 = [] then (0, some DurationError.invalid)
  else
    match parseLoop fp s1.length s1 0 with
    | Loop.done d =>
      if neg then (-(d : Int), none)
      else if d > 2 ^ 63 - 1 then (0, some DurationError.invalid)
      else ((d : Int), none)
    | Loop.failed e => (0, some e)
    | Loop.outOfFuel => (0, some DurationError.invalid)

end time

/-! ## Package `fmt` (the verbs the gateway uses) -/

namespace fmt

/-- An operand of `Sprintf`: a `string` or an `int`. -/
inductive Arg where
  | string (s : String)
  | int (n : Int)
  deriving DecidableEq, Repr

/-- The digit loop of `fmtInteger` for base 10, filling the buffer from the right:
`for u >= 10 { next := u / 10; buf[i] = byte('0' + u - next*10); u = next }` and
then the leading digit. Each round divides `u` by ten, so `fuel = u` rounds are
enough. -/
def fmtDigits : Nat → Nat → List Char → List Char
  | 0, u, buf => Char.ofNat ('0'.toNat + u % 10) :: buf
  | fuel + 1, u, buf =>
    if u ≥ 10 then fmtDigits fuel (u / 10) (Char.ofNat ('0'.toNat + (u - u / 10 * 10)) :: buf)
    else Char.ofNat ('0'.toNat + u) :: buf

/-- The verb `%d` on an `int`: the decimal digits of the magnitude, after a `-`
when the operand is negative. -/
def fmtInteger (n : Int) : List Char :=
  if n < 0 then '-' :: fmtDigits n.natAbs n.natAbs [] else fmtDigits n.natAbs n.natAbs []

/-- An operand as `type=value`, the way the error forms of `Sprintf` show it. -/
def typedValue : Arg → List Char
  | Arg.string s => "string=".data ++ s.data
  | Arg.int n => "int=".data ++ fmtInteger n

/-- The form `%!(EXTRA type=value, ...)` for operands that no verb consumed. -/
def extraArgs : List Arg → List Char
  | [] => []
  | [a] => typedValue a
  | a :: rest => typedValue a ++ ", ".data ++ extraArgs rest

/-- The loop of `doPrintf` over the format: text is copied; `%%` is a percent
sign; `%s` consumes a `string` operand and `%d` an `int` operand; a verb without
an operand gives `%!verb(MISSING)` and a verb on an operand of the other type
gives `%!verb(type=value)`. Flags, widths and the other verbs of Go are outside
this fragment (they are rendered like a verb on a wrong operand). -/
def doPrintf : List Char → List Arg → List Char
  | [], [] => []
  | [], a :: rest => "%!(EXTRA ".data ++ extraArgs (a :: rest) ++ [')']
  | c :: rest, args =>
    if c ≠ '%' then c :: doPrintf rest args
    else
      match rest, args with
      | [], _ => "%!(NOVERB)".data
      | verb :: rest1, [] =>
        if verb = '%' then '%' :: doPrintf rest1 []
        else ['%', '!', verb] ++ "(MISSING)".data ++ doPrintf rest1 []
      | verb :: rest1, a :: args1 =>
        if verb = '%' then '%' :: doPrintf rest1 (a :: args1)
        else
          match a with
          | Arg.string s =>
            if verb = 's' then s.data ++ doPrintf rest1 args1
            else ['%', '!', verb, '('] ++ typedValue a ++ [')'] ++ doPrintf rest1 args1
          | Arg.int n =>
            if verb = 'd' then fmtInteger n ++ doPrintf rest1 args1
            else ['%', '!', verb, '('] ++ typedValue a ++ [')'] ++ doPrintf rest1 args1

/-- The function `fmt.Sprintf`. -/
def Sprintf (format : String) (args : List Arg) : String :=
  String.mk (doPrintf format.data args)

end fmt

/-! ## Package `config` -/

namespace config

/-- ServerConfig holds HTTP server settings. -/
structure ServerConfig where
  Host : String
  Port : Int
  ReadTimeout : time.Duration
  WriteTimeout : time.Duration
  IdleTimeout : time.Duration
  deriving DecidableEq, Repr

/-- RedisConfig holds Redis connection settings. -/
structure RedisConfig where
  Addr : String
  Password : String
  DB : Int
  MaxRetries : Int
  PoolSize : Int
  DialTimeout : time.Duration
  ReadTimeout : time.Duration
  WriteTimeout : time.Duration
  deriving DecidableEq, Repr

/-- PostgresConfig holds PostgreSQL connection settings. -/
structure PostgresConfig where
  Host : String
  Port : Int
  User : String
  Password : String
  Database : String
  SSLMode : String
  MaxOpenConns : Int
  MaxIdleConns : Int
  ConnMaxLifetime : time.Duration
  deriving DecidableEq, Repr

/-- GatewayConfig holds gateway-specific behavior settings. -/
structure GatewayConfig where
  FailurePolicy : String
  UpstreamTimeout : time.Duration
  PolicyCacheTTL : time.Duration
  deriving DecidableEq, Repr

/-- Config holds all application configuration. -/
structure Config where
  Server : ServerConfig
  Redis : RedisConfig
  Postgres : PostgresConfig
  Gateway : GatewayConfig
  deriving DecidableEq, Repr

/-- The helper `getEnv`. -/
def getEnv (env : os.Environ) (key defaultValue : String) : String :=
  let value := os.Getenv env key
  if value ≠ "" then value else defaultValue

/-- The helper `getEnvAsInt`. -/
def getEnvAsInt (env : os.Environ) (key : String) (defaultValue : Int) : Int :=
  let value := os.Getenv env key
  if value ≠ "" then
    let r := strconv.Atoi value
    if r.2 = none then r.1 else defaultValue
  else defaultValue

/-- The helper `getEnvAsDuration`. -/
def getEnvAsDuration (fp : time.FracProduct) (env : os.Environ) (key : String)
    (defaultValue : time.Duration) : time.Duration :=
  let value := os.Getenv env key
  if value ≠ "" then
    let r := time.ParseDuration fp value
    if r.2 = none then r.1 else defaultValue
  else defaultValue

/-- The error value `Load` builds with `fmt.Errorf`: its message. -/
abbrev error := String

/-- Load reads configuration from environment variables with sensible defaults. -/
def Load (fp : time.FracProduct) (env : os.Environ) : Option Config × Option error :=
  let cfg : Config :=
    { Server :=
        { Host := getEnv env "SERVER_HOST" "0.0.0.0"
          Port := getEnvAsInt env "SERVER_PORT" 8080
          ReadTimeout := getEnvAsDuration fp env "SERVER_READ_TIMEOUT" (10 * time.Second)
          WriteTimeout := getEnvAsDuration fp env "SERVER_WRITE_TIMEOUT" (10 * time.Second)
          IdleTimeout := getEnvAsDuration fp env "SERVER_IDLE_TIMEOUT" (120 * time.Second) }
      Redis :=
        { Addr := getEnv env "REDIS_ADDR" "localhost:6379"
          Password := getEnv env "REDIS_PASSWORD" ""
          DB := getEnvAsInt env "REDIS_DB" 0
          MaxRetries := getEnvAsInt env "REDIS_MAX_RETRIES" 3
          PoolSize := getEnvAsInt env "REDIS_POOL_SIZE" 10
          DialTimeout := getEnvAsDuration fp env "REDIS_DIAL_TIMEOUT" (5 * time.Second)
          ReadTimeout := getEnvAsDuration fp env "REDIS_READ_TIMEOUT" (3 * time.Second)
          WriteTimeout := getEnvAsDuration fp env "REDIS_WRITE_TIMEOUT" (3 * time.Second) }
      Postgres :=
        { Host := getEnv env "POSTGRES_HOST" "localhost"
          Port := getEnvAsInt env "POSTGRES_PORT" 5432
          User := getEnv env "POSTGRES_USER" "gateway"
          Password := getEnv env "POSTGRES_PASSWORD" "gateway_password"
          Database := getEnv env "POSTGRES_DB" "gateway_db"
          SSLMode := getEnv env "POSTGRES_SSLMODE" "disable"
          MaxOpenConns := getEnvAsInt env "POSTGRES_MAX_OPEN_CONNS" 25
          MaxIdleConns := getEnvAsInt env "POSTGRES_MAX_IDLE_CONNS" 5
          ConnMaxLifetime := getEnvAsDuration fp env "POSTGRES_CONN_MAX_LIFETIME" (5 * time.Minute) }
      Gateway :=
        { FailurePolicy := getEnv env "GATEWAY_FAILURE_POLICY" "fail-closed"
          UpstreamTimeout := getEnvAsDuration fp env "GATEWAY_UPSTREAM_TIMEOUT" (30 * time.Second)
          PolicyCacheTTL := getEnvAsDuration fp env "GATEWAY_POLICY_CACHE_TTL" (5 * time.Minute) } }
  if cfg.Gateway.FailurePolicy ≠ "fail-open" ∧ cfg.Gateway.FailurePolicy ≠ "fail-closed" then
    (none, some "invalid GATEWAY_FAILURE_POLICY: must be 'fail-open' or 'fail-closed'")
  else (some cfg, none)

/-- ServerAddr returns the full server address (host:port). -/
def ServerAddr (c : Config) : String :=
  fmt.Sprintf "%s:%d" [fmt.Arg.string c.Server.Host, fmt.Arg.int c.Server.Port]

/-- PostgresDSN returns the PostgreSQL connection string. -/
def PostgresDSN (c : Config) : String :=
  fmt.Sprintf "host=%s port=%d user=%s password=%s dbname=%s sslmode=%s"
    [fmt.Arg.string c.Postgres.Host,
     fmt.Arg.int c.Postgres.Port,
     fmt.Arg.string c.Postgres.User,
     fmt.Arg.string c.Postgres.Password,
     fmt.Arg.string c.Postgres.Database,
     fmt.Arg.string c.Postgres.SSLMode]

end config

/-! ## Package `strings` -/

namespace strings

/-- One step of `strings.EqualFold`: do the runes `sr` and `tr` agree under simple
case folding. After ordering the pair as `lo < hi`: two ASCII runes agree when
`lo` is an upper-case letter and `hi` its lower-case form; otherwise the orbit of
`lo` under `unicode.SimpleFold` is walked up to `hi`, and the only ASCII letters
whose orbit leaves ASCII are `K`, `k` (the Kelvin sign U+212A) and `S`, `s` (the
long s U+017F). Exact whenever one of the two runes is ASCII. -/
def foldEq (sr tr : Char) : Bool :=
  if tr = sr then true
  else
    let lo := if tr < sr then tr else sr
    let hi := if tr < sr then sr else tr
    if hi.toNat < 128 then
      decide ('A' ≤ lo) && decide (lo ≤ 'Z') && decide (hi.toNat = lo.toNat + 32)
    else
      ((decide (lo = 'K') || decide (lo = 'k')) && decide (hi.toNat = 8490)) ||
      ((decide (lo = 'S') || decide (lo = 's')) && decide (hi.toNat = 383))

/-- The rune loop of `strings.EqualFold`. -/
def equalFoldRunes : List Char → List Char → Bool
  | [], [] => true
  | [], _ :: _ => false
  | _ :: _, [] => false
  | sr :: s, tr :: t => foldEq sr tr && equalFoldRunes s t

/-- The function `strings.EqualFold`, exact when `t` is ASCII (as every level name is). -/
def EqualFold (s t : String) : Bool :=
  equalFoldRunes s.data t.data

end strings

/-! ## Package `zerolog` -/

namespace zerolog

/-- A `zerolog.Level` (an `int8`). -/
abbrev Level := Int

def DebugLevel : Level := 0
def InfoLevel : Level := 1
def WarnLevel : Level := 2
def ErrorLevel : Level := 3
def FatalLevel : Level := 4
def PanicLevel : Level := 5
def NoLevel : Level := 6
def Disabled : Level := 7
def TraceLevel : Level := -1

/-- The method `Level.String`, which is the default `LevelFieldMarshalFunc`. -/
def LevelString (l : Level) : String :=
  if l = TraceLevel then "trace"
  else if l = DebugLevel then "debug"
  else if l = InfoLevel then "info"
  else if l = WarnLevel then "warn"
  else if l = ErrorLevel then "error"
  else if l = FatalLevel then "fatal"
  else if l = PanicLevel then "panic"
  else if l = Disabled then "disabled"
  else if l = NoLevel then ""
  else String.mk (fmt.fmtInteger l)

/-- The two errors of `ParseLevel`. -/
inductive LevelError where
  | unknownLevelString
  | outOfBounds
  deriving DecidableEq, Repr

/-- The function `zerolog.ParseLevel`: a level name in any letter case (the name
of `NoLevel` is the empty string), or else the decimal number of a level. -/
def ParseLevel (levelStr : String) : Level × Option LevelError :=
  if strings.EqualFold levelStr (LevelString TraceLevel) then (TraceLevel, none)
  else if strings.EqualFold levelStr (LevelString DebugLevel) then (DebugLevel, none)
  else if strings.EqualFold levelStr (LevelString InfoLevel) then (InfoLevel, none)
  else if strings.EqualFold levelStr (LevelString WarnLevel) then (WarnLevel, none)
  else if strings.EqualFold levelStr (LevelString ErrorLevel) then (ErrorLevel, none)
  else if strings.EqualFold levelStr (LevelString FatalLevel) then (FatalLevel, none)
  else if strings.EqualFold levelStr (LevelString PanicLevel) then (PanicLevel, none)
  else if strings.EqualFold levelStr (LevelString Disabled) then (Disabled, none)
  else if strings.EqualFold levelStr (LevelString NoLevel) then (NoLevel, none)
  else
    let r := strconv.Atoi levelStr
    if r.2 ≠ none then (NoLevel, some LevelError.unknownLevelString)
    else if r.1 > 127 ∨ r.1 < -128 then (NoLevel, some LevelError.outOfBounds)
    else (r.1, none)

/-- The package-level state of zerolog that the gateway sets: the global minimum
level and `TimeFieldFormat`. -/
structure Globals where
  gLevel : Level
  TimeFieldFormat : String
  deriving DecidableEq, Repr

/-- The function `zerolog.SetGlobalLevel`. -/
def SetGlobalLevel (g : Globals) (l : Level) : Globals :=
  { g with gLevel := l }

/-- A value that a field of a record holds: a JSON scalar, the JSON text of an
array or an object (`raw`), or a clock reading together with the layout it is
rendered in (`time`). -/
inductive Value where
  | str (s : String)
  | int (n : Int)
  | bool (b : Bool)
  | null
  | raw (json : String)
  | time (t : Nat) (layout : String)
  deriving DecidableEq, Repr

/-- An `interface{}` operand, by what `json.Marshal` makes of it: a JSON value
(a Go value that implements `LogObjectMarshaler` gives the text of its object),
or an error for a value that cannot be marshalled, such as a channel. -/
inductive Operand where
  | marshals (v : Value)
  | fails (err : String)
  deriving DecidableEq, Repr

/-- The function `AppendInterface`: the marshalled value, or, when marshalling
fails, the string `marshaling error: <err>` in its place. -/
def Operand.encode : Operand → Value
  | Operand.marshals v => v
  | Operand.fails err => Value.str ("marshaling error: " ++ err)

/-- A non-nil `error` operand, by what `Event.AnErr` does with it: an error
with a message, a non-nil interface around a nil pointer, or an error that
implements `LogObjectMarshaler` (the text of its object). -/
inductive ErrorOperand where
  | message (m : String)
  | nilValue
  | object (json : String)
  deriving DecidableEq, Repr

/-- One `key: value` member of a record. -/
abbrev Field := String × Value

/-- The members of the JSON object of one event, in the order they are appended. -/
abbrev Record := List Field

/-- The keys of a record, in order. -/
def keys (r : Record) : List String :=
  r.map fun f => f.1

/-- The decoding of the JSON line of an event into a `map[string]interface{}`,
as `ConsoleWriter.Write` does it: one entry per key, and a key that the line
repeats keeps the last value given for it. -/
def decodeObject : Record → List Field
  | [] => []
  | f :: r => if f.1 ∈ keys r then decodeObject r else f :: decodeObject r

/-- The struct `zerolog.ConsoleWriter`, with the two fields the gateway sets. Its
zero value has a nil `Out` and an empty `TimeFormat`. -/
structure ConsoleWriter where
  Out : Option os.File
  TimeFormat : String
  deriving DecidableEq, Repr

/-- The zero value of `ConsoleWriter`. -/
def ConsoleWriter.zero : ConsoleWriter :=
  { Out := none, TimeFormat := "" }

/-- The `io.Writer` values a logger is built on: a file, which receives the JSON
line of each event as it is, or a `ConsoleWriter`, which re-renders it in the
human-readable console form. -/
inductive Writer where
  | file (f : os.File)
  | console (w : ConsoleWriter)
  deriving DecidableEq, Repr

/-- What became of an event that was handed to the writer: its JSON line was
written to `out` with the members `r`; or the console line of the decoded event
`evt` was written to `out`; or (`noSink`) the write panicked on the nil `Out` of
the writer and nothing was written, `r` being the record the writer was given. -/
inductive Outcome where
  | json (out : os.File) (r : Record)
  | console (out : os.File) (evt : List Field)
  | noSink (r : Record)
  deriving DecidableEq, Repr

/-- The fields an outcome holds: those of the line written, or of the record
the writer was given when it panicked. -/
def Outcome.record : Outcome → Record
  | Outcome.json _ r => r
  | Outcome.console _ evt => evt
  | Outcome.noSink r => r

/-- The write of one event. A file gets the JSON line as it is.
`ConsoleWriter.Write` decodes the line into a map, formats every entry of the
map and ends with `buf.WriteTo(w.Out)`: with a nil `Out` that is a call on a nil
interface, a run-time panic, and no line reaches any sink. -/
def Writer.write : Writer → Record → Outcome
  | Writer.file f, r => Outcome.json f r
  | Writer.console w, r =>
    match w.Out with
    | some f => Outcome.console f (decodeObject r)
    | none => Outcome.noSink r

/-- The hooks a logger can carry; the gateway installs the timestamp hook. -/
inductive Hook where
  | timestamp
  deriving DecidableEq, Repr

/-- The struct `zerolog.Logger`: its writer, its own minimum level, the fields of
its context and its hooks. -/
structure Logger where
  w : Writer
  level : Level
  context : List Field
  hooks : List Hook
  deriving DecidableEq, Repr

/-- The function `zerolog.New`. -/
def New (w : Writer) : Logger :=
  { w := w, level := TraceLevel, context := [], hooks := [] }

/-- The struct `zerolog.Context`: a logger under construction. -/
structure Context where
  l : Logger

/-- The method `Logger.With`: the child starts from a copy of the context
(`make([]byte, 0, 500)` and `append`), so what it appends later lands in a
buffer of its own and the context of `l` is a value no child can write to. -/
def Logger.With (l : Logger) : Context :=
  { l := l }

/-- The method `Context.Timestamp`: adds the timestamp hook. -/
def Context.Timestamp (c : Context) : Context :=
  { l := { c.l with hooks := c.l.hooks ++ [Hook.timestamp] } }

/-- The method `Context.Interface`: appends a field of any value to the context,
encoded by `AppendInterface`. -/
def Context.Interface (c : Context) (key : String) (i : Operand) : Context :=
  { l := { c.l with context := c.l.context ++ [(key, i.encode)] } }

/-- The method `Context.Logger`. -/
def Context.Logger (c : Context) : Logger :=
  c.l

/-- The struct `zerolog.Event`: the writer, the level, the fields so far, the hooks. -/
structure Event where
  w : Writer
  level : Level
  buf : List Field
  ch : List Hook

/-- The method `Logger.should`: `lvl < l.level || lvl < GlobalLevel()` filters the
event out (the gateway sets no sampler). -/
def Logger.should (g : Globals) (l : Logger) (lvl : Level) : Bool :=
  if lvl < l.level ∨ lvl < g.gLevel then false else true

/-- The method `Logger.newEvent`: `none` is the nil event of a filtered level;
otherwise the event starts with the level field (unless the level is `NoLevel`)
and the fields of the context. -/
def Logger.newEvent (g : Globals) (l : Logger) (level : Level) : Option Event :=
  if !l.should g level then none
  else
    some
      { w := l.w
        level := level
        ch := l.hooks
        buf := (if level ≠ NoLevel then [("level", Value.str (LevelString level))] else [])
                 ++ l.context }

def Logger.Debug (g : Globals) (l : Logger) : Option Event := l.newEvent g DebugLevel
def Logger.Info (g : Globals) (l : Logger) : Option Event := l.newEvent g InfoLevel
def Logger.Warn (g : Globals) (l : Logger) : Option Event := l.newEvent g WarnLevel
def Logger.Error (g : Globals) (l : Logger) : Option Event := l.newEvent g ErrorLevel

/-- The method `Event.Interface`: nothing on a nil event; otherwise the field is
appended, encoded by `AppendInterface`. -/
def Event.Interface (e : Option Event) (key : String) (i : Operand) : Option Event :=
  match e with
  | none => none
  | some e => some { e with buf := e.buf ++ [(key, i.encode)] }

/-- The method `Event.Err` on a non-nil error (`AnErr` with the field name
`error` and the default `ErrorMarshalFunc`): nothing on a nil event; an error
with a message adds the field `error` with that message, a nil value adds
nothing, a `LogObjectMarshaler` adds its object. -/
def Event.Err (e : Option Event) (err : ErrorOperand) : Option Event :=
  match e with
  | none => none
  | some e =>
    match err with
    | ErrorOperand.message m => some { e with buf := e.buf ++ [("error", Value.str m)] }
    | ErrorOperand.nilValue => some e
    | ErrorOperand.object json => some { e with buf := e.buf ++ [("error", Value.raw json)] }

/-- The run of one hook on an event: the timestamp hook appends the field `time`
with the clock reading `now` in the layout `TimeFieldFormat`. -/
def Hook.run (g : Globals) (now : Nat) (buf : List Field) : Hook → List Field
  | Hook.timestamp => buf ++ [("time", Value.time now g.TimeFieldFormat)]

/-- The method `Event.Msg`: nothing on a nil event; otherwise the hooks run, the
field `message` is appended when the message is not empty, and the event is
written. `none` means that nothing was handed to the writer. -/
def Event.Msg (g : Globals) (now : Nat) (e : Option Event) (msg : String) : Option Outcome :=
  match e with
  | none => none
  | some e =>
    let buf1 := e.ch.foldl (Hook.run g now) e.buf
    let buf2 := if msg ≠ "" then buf1 ++ [("message", Value.str msg)] else buf1
    some (e.w.write buf2)

end zerolog

/-! ## Package `observability` -/

namespace observability

/-- Logger wraps zerolog.Logger for consistent logging across the application. -/
structure Logger where
  logger : zerolog.Logger
  deriving DecidableEq, Repr

/-- NewLogger creates a new logger instance with the specified log level. The
result is the logger together with the package state of zerolog after the call. -/
def NewLogger (env : os.Environ) (g : zerolog.Globals) (level : String) :
    Logger × zerolog.Globals :=
  let parsed := zerolog.ParseLevel level
  let logLevel := if parsed.2 ≠ none then zerolog.InfoLevel else parsed.1
  let g1 := zerolog.SetGlobalLevel g logLevel
  let g2 := { g1 with TimeFieldFormat := time.RFC3339Nano }
  let useConsole := decide (os.Getenv env "LOG_FORMAT" = "console")
  let output : zerolog.ConsoleWriter :=
    if useConsole then { Out := some os.File.Stdout, TimeFormat := time.RFC3339 }
    else zerolog.ConsoleWriter.zero
  let logger := ((zerolog.New (zerolog.Writer.console output)).With.Timestamp).Logger
  ({ logger := logger }, g2)

/-- Info logs an info message. -/
def Logger.Info (g : zerolog.Globals) (now : Nat) (l : Logger) (msg : String) :
    Option zerolog.Outcome :=
  zerolog.Event.Msg g now (l.logger.Info g) msg

/-- Error logs an error message. -/
def Logger.Error (g : zerolog.Globals) (now : Nat) (l : Logger) (msg : String) :
    Option zerolog.Outcome :=
  zerolog.Event.Msg g now (l.logger.Error g) msg

/-- Warn logs a warning message. -/
def Logger.Warn (g : zerolog.Globals) (now : Nat) (l : Logger) (msg : String) :
    Option zerolog.Outcome :=
  zerolog.Event.Msg g now (l.logger.Warn g) msg

/-- Debug logs a debug message. -/
def Logger.Debug (g : zerolog.Globals) (now : Nat) (l : Logger) (msg : String) :
    Option zerolog.Outcome :=
  zerolog.Event.Msg g now (l.logger.Debug g) msg

/-- The loop `for k, v := range fields { event = event.Interface(k, v) }`;
`fields` lists the entries of the map in the order the loop visits them. -/
def withFields (event : Option zerolog.Event) (fields : List (String × zerolog.Operand)) :
    Option zerolog.Event :=
  fields.foldl (fun e kv => zerolog.Event.Interface e kv.1 kv.2) event

/-- Infof logs an info message with fields. -/
def Logger.Infof (g : zerolog.Globals) (now : Nat) (l : Logger) (msg : String)
    (fields : List (String × zerolog.Operand)) : Option zerolog.Outcome :=
  zerolog.Event.Msg g now (withFields (l.logger.Info g) fields) msg

/-- Errorf logs an error message with fields and optional error (`none` is a
nil error). -/
def Logger.Errorf (g : zerolog.Globals) (now : Nat) (l : Logger) (msg : String)
    (err : Option zerolog.ErrorOperand) (fields : List (String × zerolog.Operand)) :
    Option zerolog.Outcome :=
  let event := l.logger.Error g
  let event1 :=
    match err with
    | some e => zerolog.Event.Err event e
    | none => event
  zerolog.Event.Msg g now (withFields event1 fields) msg

/-- Warnf logs a warning message with fields. -/
def Logger.Warnf (g : zerolog.Globals) (now : Nat) (l : Logger) (msg : String)
    (fields : List (String × zerolog.Operand)) : Option zerolog.Outcome :=
  zerolog.Event.Msg g now (withFields (l.logger.Warn g) fields) msg

/-- Debugf logs a debug message with fields. -/
def Logger.Debugf (g : zerolog.Globals) (now : Nat) (l : Logger) (msg : String)
    (fields : List (String × zerolog.Operand)) : Option zerolog.Outcome :=
  zerolog.Event.Msg g now (withFields (l.logger.Debug g) fields) msg

/-- One call of an emitter of `Logger`, with its arguments. -/
inductive Call where
  | Info (msg : String)
  | Infof (msg : String) (fields : List (String × zerolog.Operand))
  | Error (msg : String)
  | Errorf (msg : String) (err : Option zerolog.ErrorOperand)
      (fields : List (String × zerolog.Operand))
  | Warn (msg : String)
  | Warnf (msg : String) (fields : List (String × zerolog.Operand))
  | Debug (msg : String)
  | Debugf (msg : String) (fields : List (String × zerolog.Operand))

/-- The call made on the logger `l`. -/
def Call.run (g : zerolog.Globals) (now : Nat) (l : Logger) : Call → Option zerolog.Outcome
  | Call.Info msg => l.Info g now msg
  | Call.Infof msg fields => l.Infof g now msg fields
  | Call.Error msg => l.Error g now msg
  | Call.Errorf msg err fields => l.Errorf g now msg err fields
  | Call.Warn msg => l.Warn g now msg
  | Call.Warnf msg fields => l.Warnf g now msg fields
  | Call.Debug msg => l.Debug g now msg
  | Call.Debugf msg fields => l.Debugf g now msg fields

/-- The level of the event that the call creates. -/
def Call.level : Call → zerolog.Level
  | Call.Info _ => zerolog.InfoLevel
  | Call.Infof _ _ => zerolog.InfoLevel
  | Call.Error _ => zerolog.ErrorLevel
  | Call.Errorf _ _ _ => zerolog.ErrorLevel
  | Call.Warn _ => zerolog.WarnLevel
  | Call.Warnf _ _ => zerolog.WarnLevel
  | Call.Debug _ => zerolog.DebugLevel
  | Call.Debugf _ _ => zerolog.DebugLevel

/-- The message of the call. -/
def Call.msg : Call → String
  | Call.Info msg => msg
  | Call.Infof msg _ => msg
  | Call.Error msg => msg
  | Call.Errorf msg _ _ => msg
  | Call.Warn msg => msg
  | Call.Warnf msg _ => msg
  | Call.Debug msg => msg
  | Call.Debugf msg _ => msg

/-- The fields that the call passes to the event before it sends it: the field
`error` of `Errorf` and the fields of the map, encoded. -/
def Call.extra : Call → List zerolog.Field
  | Call.Infof _ fields => fields.map fun kv => (kv.1, kv.2.encode)
  | Call.Warnf _ fields => fields.map fun kv => (kv.1, kv.2.encode)
  | Call.Debugf _ fields => fields.map fun kv => (kv.1, kv.2.encode)
  | Call.Errorf _ err fields =>
    (match err with
      | some (zerolog.ErrorOperand.message m) => [("error", zerolog.Value.str m)]
      | some (zerolog.ErrorOperand.object json) => [("error", zerolog.Value.raw json)]
      | _ => []) ++
    fields.map fun kv => (kv.1, kv.2.encode)
  | _ => []

/-- The fields that the event of the call holds after the fields of the
logger's context: those the call passes, one `time` field per timestamp hook,
and the message when it is not empty. -/
def Call.tail (g : zerolog.Globals) (now : Nat) (l : Logger) (c : Call) : List zerolog.Field :=
  c.extra ++ (l.logger.hooks.map fun _ => ("time", zerolog.Value.time now g.TimeFieldFormat)) ++
    (if c.msg ≠ "" then [("message", zerolog.Value.str c.msg)] else [])

/-- GetZerologLogger returns the underlying zerolog.Logger for advanced usage. -/
def Logger.GetZerologLogger (l : Logger) : zerolog.Logger :=
  l.logger

end observability

/-! ## The configuration surface of the specification -/

namespace config

/-- The configuration that `Load` assembles before it validates the failure
policy: the struct literal of `Load`, field by field. -/
def resolved (fp : time.FracProduct) (env : os.Environ) : Config :=
  { Server :=
      { Host := getEnv env "SERVER_HOST" "0.0.0.0"
        Port := getEnvAsInt env "SERVER_PORT" 8080
        ReadTimeout := getEnvAsDuration fp env "SERVER_READ_TIMEOUT" (10 * time.Second)
        WriteTimeout := getEnvAsDuration fp env "SERVER_WRITE_TIMEOUT" (10 * time.Second)
        IdleTimeout := getEnvAsDuration fp env "SERVER_IDLE_TIMEOUT" (120 * time.Second) }
    Redis :=
      { Addr := getEnv env "REDIS_ADDR" "localhost:6379"
        Password := getEnv env "REDIS_PASSWORD" ""
        DB := getEnvAsInt env "REDIS_DB" 0
        MaxRetries := getEnvAsInt env "REDIS_MAX_RETRIES" 3
        PoolSize := getEnvAsInt env "REDIS_POOL_SIZE" 10
        DialTimeout := getEnvAsDuration fp env "REDIS_DIAL_TIMEOUT" (5 * time.Second)
        ReadTimeout := getEnvAsDuration fp env "REDIS_READ_TIMEOUT" (3 * time.Second)
        WriteTimeout := getEnvAsDuration fp env "REDIS_WRITE_TIMEOUT" (3 * time.Second) }
    Postgres :=
      { Host := getEnv env "POSTGRES_HOST" "localhost"
        Port := getEnvAsInt env "POSTGRES_PORT" 5432
        User := getEnv env "POSTGRES_USER" "gateway"
        Password := getEnv env "POSTGRES_PASSWORD" "gateway_password"
        Database := getEnv env "POSTGRES_DB" "gateway_db"
        SSLMode := getEnv env "POSTGRES_SSLMODE" "disable"
        MaxOpenConns := getEnvAsInt env "POSTGRES_MAX_OPEN_CONNS" 25
        MaxIdleConns := getEnvAsInt env "POSTGRES_MAX_IDLE_CONNS" 5
        ConnMaxLifetime := getEnvAsDuration fp env "POSTGRES_CONN_MAX_LIFETIME" (5 * time.Minute) }
    Gateway :=
      { FailurePolicy := getEnv env "GATEWAY_FAILURE_POLICY" "fail-closed"
        UpstreamTimeout := getEnvAsDuration fp env "GATEWAY_UPSTREAM_TIMEOUT" (30 * time.Second)
        PolicyCacheTTL := getEnvAsDuration fp env "GATEWAY_POLICY_CACHE_TTL" (5 * time.Minute) } }

/-- The message of the one error `Load` returns. -/
def invalidPolicyMessage : error :=
  "invalid GATEWAY_FAILURE_POLICY: must be 'fail-open' or 'fail-closed'"

/-- The names of the settings that `Load` reads. -/
def recognizedSettings : List String :=
  ["SERVER_HOST", "SERVER_PORT", "SERVER_READ_TIMEOUT", "SERVER_WRITE_TIMEOUT",
   "SERVER_IDLE_TIMEOUT", "REDIS_ADDR", "REDIS_PASSWORD", "REDIS_DB", "REDIS_MAX_RETRIES",
   "REDIS_POOL_SIZE", "REDIS_DIAL_TIMEOUT", "REDIS_READ_TIMEOUT", "REDIS_WRITE_TIMEOUT",
   "POSTGRES_HOST", "POSTGRES_PORT", "POSTGRES_USER", "POSTGRES_PASSWORD", "POSTGRES_DB",
   "POSTGRES_SSLMODE", "POSTGRES_MAX_OPEN_CONNS", "POSTGRES_MAX_IDLE_CONNS",
   "POSTGRES_CONN_MAX_LIFETIME", "GATEWAY_FAILURE_POLICY", "GATEWAY_UPSTREAM_TIMEOUT",
   "GATEWAY_POLICY_CACHE_TTL"]

/-- The defaults table of the specification, durations in nanoseconds. -/
def documentedDefaults : Config :=
  { Server :=
      { Host := "0.0.0.0", Port := 8080, ReadTimeout := 10000000000,
        WriteTimeout := 10000000000, IdleTimeout := 120000000000 }
    Redis :=
      { Addr := "localhost:6379", Password := "", DB := 0, MaxRetries := 3, PoolSize := 10,
        DialTimeout := 5000000000, ReadTimeout := 3000000000, WriteTimeout := 3000000000 }
    Postgres :=
      { Host := "localhost", Port := 5432, User := "gateway", Password := "gateway_password",
        Database := "gateway_db", SSLMode := "disable", MaxOpenConns := 25, MaxIdleConns := 5,
        ConnMaxLifetime := 300000000000 }
    Gateway :=
      { FailurePolicy := "fail-closed", UpstreamTimeout := 30000000000,
        PolicyCacheTTL := 300000000000 } }

/-- A row of the settings table: the name of the setting, its documented default
and the `Config` field it fills. -/
structure Setting (α : Type) where
  key : String
  default : α
  field : Config → α

/-- The string-valued settings. -/
def stringSettings : List (Setting String) :=
  [ { key := "SERVER_HOST", default := "0.0.0.0", field := fun c => c.Server.Host },
    { key := "REDIS_ADDR", default := "localhost:6379", field := fun c => c.Redis.Addr },
    { key := "REDIS_PASSWORD", default := "", field := fun c => c.Redis.Password },
    { key := "POSTGRES_HOST", default := "localhost", field := fun c => c.Postgres.Host },
    { key := "POSTGRES_USER", default := "gateway", field := fun c => c.Postgres.User },
    { key := "POSTGRES_PASSWORD", default := "gateway_password",
      field := fun c => c.Postgres.Password },
    { key := "POSTGRES_DB", default := "gateway_db", field := fun c => c.Postgres.Database },
    { key := "POSTGRES_SSLMODE", default := "disable", field := fun c => c.Postgres.SSLMode },
    { key := "GATEWAY_FAILURE_POLICY", default := "fail-closed",
      field := fun c => c.Gateway.FailurePolicy } ]

/-- The integer-valued settings. -/
def intSettings : List (Setting Int) :=
  [ { key := "SERVER_PORT", default := 8080, field := fun c => c.Server.Port },
    { key := "REDIS_DB", default := 0, field := fun c => c.Redis.DB },
    { key := "REDIS_MAX_RETRIES", default := 3, field := fun c => c.Redis.MaxRetries },
    { key := "REDIS_POOL_SIZE", default := 10, field := fun c => c.Redis.PoolSize },
    { key := "POSTGRES_PORT", default := 5432, field := fun c => c.Postgres.Port },
    { key := "POSTGRES_MAX_OPEN_CONNS", default := 25,
      field := fun c => c.Postgres.MaxOpenConns },
    { key := "POSTGRES_MAX_IDLE_CONNS", default := 5,
      field := fun c => c.Postgres.MaxIdleConns } ]

/-- The duration-valued settings, defaults in nanoseconds. -/
def durationSettings : List (Setting time.Duration) :=
  [ { key := "SERVER_READ_TIMEOUT", default := 10000000000,
      field := fun c => c.Server.ReadTimeout },
    { key := "SERVER_WRITE_TIMEOUT", default := 10000000000,
      field := fun c => c.Server.WriteTimeout },
    { key := "SERVER_IDLE_TIMEOUT", default := 120000000000,
      field := fun c => c.Server.IdleTimeout },
    { key := "REDIS_DIAL_TIMEOUT", default := 5000000000,
      field := fun c => c.Redis.DialTimeout },
    { key := "REDIS_READ_TIMEOUT", default := 3000000000,
      field := fun c => c.Redis.ReadTimeout },
    { key := "REDIS_WRITE_TIMEOUT", default := 3000000000,
      field := fun c => c.Redis.WriteTimeout },
    { key := "POSTGRES_CONN_MAX_LIFETIME", default := 300000000000,
      field := fun c => c.Postgres.ConnMaxLifetime },
    { key := "GATEWAY_UPSTREAM_TIMEOUT", default := 30000000000,
      field := fun c => c.Gateway.UpstreamTimeout },
    { key := "GATEWAY_POLICY_CACHE_TTL", default := 300000000000,
      field := fun c => c.Gateway.PolicyCacheTTL } ]

end config

/-! ## Literals, in the words of the specification -/

/-- The number that a run of decimal digits denotes, continuing from `n`. -/
def digitsFrom (n : Nat) (ds : List Char) : Nat :=
  ds.foldl (fun acc c => acc * 10 + strconv.digitVal c) n

/-- A base-10 integer literal, in the words of the specification: an optional
sign followed by one or more decimal digits. The value it denotes, or `none`
when the string is no such literal. -/
def decimalLiteral (s : String) : Option Int :=
  match s.data with
  | [] => none
  | c :: rest =>
    if c = '-' then
      if rest ≠ [] ∧ rest.all strconv.isDigit then some (-(digitsFrom 0 rest : Int)) else none
    else if c = '+' then
      if rest ≠ [] ∧ rest.all strconv.isDigit then some (digitsFrom 0 rest : Int) else none
    else if (c :: rest).all strconv.isDigit then some (digitsFrom 0 (c :: rest) : Int) else none

/-- A duration written as magnitude and unit, in the words of the specification:
one or more decimal digits followed by a unit name. The number of nanoseconds it
denotes, or `none` when the string is not of that form. -/
def magnitudeUnit (s : String) : Option Nat :=
  let ds := s.data.takeWhile strconv.isDigit
  let u := s.data.dropWhile strconv.isDigit
  if ds = [] then none
  else (time.unitMap (String.mk u)).map fun unit => digitsFrom 0 ds * unit

/-! ## Concrete environments -/

/-- The environment with no variable set. -/
def envUnset : os.Environ := fun _ => none

/-- An environment that sets the given variables and no other. -/
def envOf (vars : List (String × String)) : os.Environ :=
  fun key => (vars.find? fun kv => kv.1 = key).map fun kv => kv.2

/-- The environment of the test `TestLoad_EnvironmentVariables`, with a host name
in mixed case between blanks, a port above 65535, a negative port and a timeout
in minutes added. -/
def envLiterals : os.Environ :=
  envOf [("SERVER_PORT", "9000"), ("SERVER_READ_TIMEOUT", "15s"),
    ("GATEWAY_FAILURE_POLICY", "fail-open"), ("SERVER_HOST", " MyHost "),
    ("POSTGRES_PORT", "70000"), ("REDIS_DB", "-1"), ("GATEWAY_UPSTREAM_TIMEOUT", "5m")]

/-- The package state of zerolog before the gateway touches it: the global level
is `TraceLevel` and `TimeFieldFormat` is `time.RFC3339`. -/
def initialGlobals : zerolog.Globals :=
  { gLevel := zerolog.TraceLevel, TimeFieldFormat := time.RFC3339 }

/-- The environment that selects the console format. -/
def envConsole : os.Environ := envOf [("LOG_FORMAT", "console")]

/-- The logger of `NewLogger("debug")` under LOG_FORMAT=console. -/
def consoleLogger : observability.Logger :=
  (observability.NewLogger envConsole initialGlobals "debug").1

/-- The package state of zerolog after that call of `NewLogger`. -/
def consoleGlobals : zerolog.Globals :=
  (observability.NewLogger envConsole initialGlobals "debug").2

/-! ## The configurations of the tests -/

/-- The Config of the test `TestPostgresDSN`, for a given password; the fields the
test leaves out hold their zero values. -/
def dsnTestConfig (password : String) : config.Config :=
  { Server := { Host := "", Port := 0, ReadTimeout := 0, WriteTimeout := 0, IdleTimeout := 0 }
    Redis :=
      { Addr := "", Password := "", DB := 0, MaxRetries := 0, PoolSize := 0, DialTimeout := 0,
        ReadTimeout := 0, WriteTimeout := 0 }
    Postgres :=
      { Host := "localhost", Port := 5432, User := "testuser", Password := password,
        Database := "testdb", SSLMode := "require", MaxOpenConns := 0, MaxIdleConns := 0,
        ConnMaxLifetime := 0 }
    Gateway := { FailurePolicy := "", UpstreamTimeout := 0, PolicyCacheTTL := 0 } }

/-- The Config of the test `TestServerAddr`, for a given host and port; the other
fields hold their zero values. -/
def addrTestConfig (host : String) (port : Int) : config.Config :=
  { Server :=
      { Host := host, Port := port, ReadTimeout := 0, WriteTimeout := 0, IdleTimeout := 0 }
    Redis :=
      { Addr := "", Password := "", DB := 0, MaxRetries := 0, PoolSize := 0, DialTimeout := 0,
        ReadTimeout := 0, WriteTimeout := 0 }
    Postgres :=
      { Host := "", Port := 0, User := "", Password := "", Database := "", SSLMode := "",
        MaxOpenConns := 0, MaxIdleConns := 0, ConnMaxLifetime := 0 }
    Gateway := { FailurePolicy := "", UpstreamTimeout := 0, PolicyCacheTTL := 0 } }

/-! ## Theorems: digits and literals -/

theorem char_le_iff_toNat (a b : Char) : a ≤ b ↔ a.toNat ≤ b.toNat := by
  rw [Char.le_def, UInt32.le_def, BitVec.le_def]
  rfl

theorem strconv.isDigit_iff_toNat (c : Char) :
    strconv.isDigit c = true ↔ 48 ≤ c.toNat ∧ c.toNat ≤ 57 := by
  simp only [strconv.isDigit, Bool.and_eq_true, decide_eq_true_eq, char_le_iff_toNat]
  rfl

theorem strconv.isDigit_iff_not_outside (c : Char) :
    strconv.isDigit c = true ↔ ¬ (c < '0' ∨ c > '9') := by
  simp only [strconv.isDigit, Bool.and_eq_true, decide_eq_true_eq, not_or, not_lt, gt_iff_lt]

theorem strconv.digitVal_lt (c : Char) (h : strconv.isDigit c = true) :
    strconv.digitVal c < 10 ∧ c.toNat = 48 + strconv.digitVal c := by
  rw [strconv.isDigit_iff_toNat] at h
  have : '0'.toNat = 48 := rfl
  simp only [strconv.digitVal, this]
  omega

theorem strconv.isDigit_ofNat (k : Nat) (h : k < 10) :
    strconv.isDigit (Char.ofNat ('0'.toNat + k)) = true ∧
      strconv.digitVal (Char.ofNat ('0'.toNat + k)) = k := by
  interval_cases k <;> decide

theorem digitsFrom_cons (n : Nat) (c : Char) (ds : List Char) :
    digitsFrom n (c :: ds) = digitsFrom (n * 10 + strconv.digitVal c) ds := rfl

theorem digitsFrom_append (n : Nat) (ds es : List Char) :
    digitsFrom n (ds ++ es) = digitsFrom (digitsFrom n ds) es := by
  simp [digitsFrom, List.foldl_append]

theorem le_digitsFrom (ds : List Char) : ∀ n, n ≤ digitsFrom n ds := by
  induction ds with
  | nil => intro n; exact le_refl n
  | cons c ds ih =>
    intro n
    rw [digitsFrom_cons]
    have := ih (n * 10 + strconv.digitVal c)
    omega

theorem strconv.atoiFast_digits (ds : List Char) (hd : ∀ c ∈ ds, strconv.isDigit c = true) :
    ∀ n, strconv.atoiFast ds n = (digitsFrom n ds, none) := by
  induction ds with
  | nil => intro n; rfl
  | cons c ds ih =>
    intro n
    have hc := hd c (List.mem_cons_self _ _)
    simp only [strconv.atoiFast, hc, if_true]
    exact ih (fun x hx => hd x (List.mem_cons_of_mem _ hx)) _

theorem strconv.parseUintLoop_digits (ds : List Char)
    (hd : ∀ c ∈ ds, strconv.isDigit c = true) :
    ∀ n, digitsFrom n ds ≤ 2 ^ 64 - 1 →
      strconv.parseUintLoop (2 ^ 64 - 1) ds n = (digitsFrom n ds, none) := by
  induction ds with
  | nil => intro n _; rfl
  | cons c ds ih =>
    intro n hn
    have hc := hd c (List.mem_cons_self _ _)
    have hv := (strconv.digitVal_lt c hc).1
    rw [digitsFrom_cons] at hn
    have hle := le_digitsFrom ds (n * 10 + strconv.digitVal c)
    have h64 : (2 : Nat) ^ 64 = 18446744073709551616 := by norm_num
    rw [h64] at hn
    have h1 : ¬ n ≥ strconv.maxUint64 / 10 + 1 := by
      simp only [strconv.maxUint64, h64]
      omega
    have h2 : (n * 10 + strconv.digitVal c) % 2 ^ 64 = n * 10 + strconv.digitVal c := by
      rw [h64]; omega
    have h3 : ¬ (n * 10 + strconv.digitVal c < n * 10 ∨
        n * 10 + strconv.digitVal c > 2 ^ 64 - 1) := by
      rw [h64]; omega
    simp only [strconv.parseUintLoop, hc, Bool.not_true, Bool.false_eq_true, if_false, h1, h2, h3]
    rw [digitsFrom_cons]
    exact ih (fun x hx => hd x (List.mem_cons_of_mem _ hx)) _ (by rw [h64]; exact hn)

theorem strconv.ParseUint_digits (ds : List Char) (hne : ds ≠ [])
    (hd : ∀ c ∈ ds, strconv.isDigit c = true) (hn : digitsFrom 0 ds ≤ 2 ^ 64 - 1) :
    strconv.ParseUint (String.mk ds) 0 = (digitsFrom 0 ds, none) := by
  have h0 : String.mk ds ≠ "" := by
    intro h
    exact hne (by simpa [String.ext_iff] using h)
  simp only [strconv.ParseUint, h0, if_false, if_true, strconv.intSize]
  exact strconv.parseUintLoop_digits ds hd 0 hn

/-- The result of `ParseInt` on a sign and a run of digits in the 64-bit range. -/
theorem strconv.ParseInt_signed (sign : Char) (ds : List Char) (hs : sign = '-' ∨ sign = '+')
    (hne : ds ≠ []) (hd : ∀ c ∈ ds, strconv.isDigit c = true)
    (hn : if sign = '-' then digitsFrom 0 ds ≤ 2 ^ 63 else digitsFrom 0 ds < 2 ^ 63) :
    strconv.ParseInt (String.mk (sign :: ds)) 0 =
      (if sign = '-' then -(digitsFrom 0 ds : Int) else (digitsFrom 0 ds : Int), none) := by
  have h63 : (2 : Nat) ^ 63 = 9223372036854775808 := by norm_num
  have h64 : (2 : Nat) ^ 64 = 18446744073709551616 := by norm_num
  have h0 : String.mk (sign :: ds) ≠ "" := by simp [String.ext_iff]
  have hu : digitsFrom 0 ds ≤ 2 ^ 64 - 1 := by
    split at hn <;> omega
  have hp := strconv.ParseUint_digits ds hne hd hu
  rcases hs with rfl | rfl
  · simp only [if_true] at hn
    simp [strconv.ParseInt, h0, hp, strconv.intSize, h63]
    omega
  · simp only [show ¬ ('+' = '-') by decide, if_false] at hn
    simp [strconv.ParseInt, h0, hp, strconv.intSize, h63]
    omega

theorem strconv.ParseInt_unsigned (c : Char) (ds : List Char) (hc : c ≠ '-' ∧ c ≠ '+')
    (hd : ∀ x ∈ c :: ds, strconv.isDigit x = true) (hn : digitsFrom 0 (c :: ds) < 2 ^ 63) :
    strconv.ParseInt (String.mk (c :: ds)) 0 = ((digitsFrom 0 (c :: ds) : Int), none) := by
  have h63 : (2 : Nat) ^ 63 = 9223372036854775808 := by norm_num
  have h64 : (2 : Nat) ^ 64 = 18446744073709551616 := by norm_num
  have h0 : String.mk (c :: ds) ≠ "" := by simp [String.ext_iff]
  have hp := strconv.ParseUint_digits (c :: ds) (by simp) hd (by omega)
  simp [strconv.ParseInt, h0, hp, strconv.intSize, h63, hc.1, hc.2]
  omega

/-- `Atoi` reads every base-10 integer literal that fits a 64-bit `int` as the
number it denotes, on the fast path and on the slow path alike. -/
theorem strconv.Atoi_decimalLiteral (s : String) (n : Int) (h : decimalLiteral s = some n)
    (hlo : -(2 : Int) ^ 63 ≤ n) (hhi : n < (2 : Int) ^ 63) : strconv.Atoi s = (n, none) := by
  have h63 : (2 : Int) ^ 63 = 9223372036854775808 := by norm_num
  have h63n : (2 : Nat) ^ 63 = 9223372036854775808 := by norm_num
  rw [h63] at hlo hhi
  obtain ⟨data⟩ := s
  cases data with
  | nil => simp [decimalLiteral] at h
  | cons c rest =>
    simp only [decimalLiteral] at h
    unfold strconv.Atoi
    dsimp only
    rw [ite_eq_iff']
    by_cases hm : c = '-'
    · subst hm
      simp only [if_true] at h
      split at h
      · rename_i hr
        simp only [Option.some.injEq] at h
        have hd : ∀ x ∈ rest, strconv.isDigit x = true := by
          simpa [List.all_eq_true] using hr.2
        refine ⟨fun _ => ?_, fun _ => ?_⟩
        · simp [hr.1, strconv.atoiFast_digits rest hd, h]
        · rw [strconv.ParseInt_signed '-' rest (Or.inl rfl) hr.1 hd (by simp only [if_true]; omega)]
          simp [h]
      · simp at h
    · by_cases hp : c = '+'
      · subst hp
        simp only [show ¬ ('+' = '-') by decide, if_false, if_true] at h
        split at h
        · rename_i hr
          simp only [Option.some.injEq] at h
          have hd : ∀ x ∈ rest, strconv.isDigit x = true := by
            simpa [List.all_eq_true] using hr.2
          refine ⟨fun _ => ?_, fun _ => ?_⟩
          · simp [hr.1, strconv.atoiFast_digits rest hd, h]
          · rw [strconv.ParseInt_signed '+' rest (Or.inr rfl) hr.1 hd
              (by simp only [show ¬ ('+' = '-') by decide, if_false]; omega)]
            simp [h]
        · simp at h
      · simp only [hm, hp, if_false] at h
        split at h
        · rename_i hr
          simp only [Option.some.injEq] at h
          have hd : ∀ x ∈ c :: rest, strconv.isDigit x = true := by
            simpa [List.all_eq_true] using hr
          refine ⟨fun _ => ?_, fun _ => ?_⟩
          · simp [hm, hp, strconv.atoiFast_digits (c :: rest) hd, h]
          · rw [strconv.ParseInt_unsigned c rest ⟨hm, hp⟩ hd (by omega)]
            simp [h]
        · simp at h

theorem fmt.fmtDigits_spec (fuel : Nat) : ∀ (u : Nat) (buf : List Char), u ≤ fuel →
    ∃ ds : List Char, fmt.fmtDigits fuel u buf = ds ++ buf ∧ ds ≠ [] ∧
      (∀ c ∈ ds, strconv.isDigit c = true) ∧ digitsFrom 0 ds = u := by
  induction fuel with
  | zero =>
    intro u buf hu
    have hu0 : u = 0 := by omega
    subst hu0
    exact ⟨['0'], rfl, by simp, by decide, by decide⟩
  | succ fuel ih =>
    intro u buf hu
    by_cases h10 : u ≥ 10
    · obtain ⟨ds, hds, hne, hdig, hval⟩ :=
        ih (u / 10) (Char.ofNat ('0'.toNat + (u - u / 10 * 10)) :: buf) (by omega)
      have hk : u - u / 10 * 10 < 10 := by omega
      have hc := strconv.isDigit_ofNat (u - u / 10 * 10) hk
      refine ⟨ds ++ [Char.ofNat ('0'.toNat + (u - u / 10 * 10))], ?_, by simp, ?_, ?_⟩
      · simp only [fmt.fmtDigits, h10, if_true, hds, List.append_assoc, List.singleton_append]
      · intro c hcm
        rw [List.mem_append, List.mem_singleton] at hcm
        rcases hcm with hcm | rfl
        · exact hdig c hcm
        · exact hc.1
      · rw [digitsFrom_append, hval, digitsFrom_cons, hc.2]
        simp only [digitsFrom, List.foldl_nil]
        omega
    · have hk : u < 10 := by omega
      have hc := strconv.isDigit_ofNat u hk
      refine ⟨[Char.ofNat ('0'.toNat + u)], ?_, by simp, ?_, ?_⟩
      · simp only [fmt.fmtDigits, h10, if_false, List.singleton_append]
      · intro c hcm
        rw [List.mem_singleton] at hcm
        rw [hcm]
        exact hc.1
      · rw [digitsFrom_cons, hc.2]
        simp [digitsFrom]

/-- The rendering of `%d` is a base-10 integer literal that denotes the operand. -/
theorem fmt.fmtInteger_decimalLiteral (n : Int) :
    decimalLiteral (String.mk (fmt.fmtInteger n)) = some n := by
  obtain ⟨ds, hds, hne, hdig, hval⟩ := fmt.fmtDigits_spec n.natAbs n.natAbs [] (le_refl _)
  rw [List.append_nil] at hds
  have hall : ds.all strconv.isDigit = true := by
    simpa [List.all_eq_true] using hdig
  by_cases hn : n < 0
  · simp only [fmt.fmtInteger, hn, if_true, hds, decimalLiteral]
    simp only [hne, hall, ne_eq, not_false_eq_true, and_self, if_true, hval, Option.some.injEq]
    omega
  · simp only [fmt.fmtInteger, hn, if_false, hds, decimalLiteral]
    cases ds with
    | nil => exact absurd rfl hne
    | cons c rest =>
      have hc := hdig c (List.mem_cons_self _ _)
      have h1 : c ≠ '-' := by
        intro h; rw [h] at hc; exact absurd hc (by decide)
      have h2 : c ≠ '+' := by
        intro h; rw [h] at hc; exact absurd hc (by decide)
      simp only [h1, h2, if_false, hall, if_true, hval, Option.some.injEq]
      omega

theorem fmt.digitChar_eq (k : Nat) (h : k < 10) : Char.ofNat ('0'.toNat + k) = Nat.digitChar k := by
  interval_cases k <;> rfl

theorem fmt.fmtDigits_eq_toDigitsCore (fuel : Nat) : ∀ (u : Nat) (buf : List Char), u ≤ fuel →
    fmt.fmtDigits fuel u buf = Nat.toDigitsCore 10 (fuel + 1) u buf := by
  induction fuel with
  | zero =>
    intro u buf hu
    have hu0 : u = 0 := by omega
    subst hu0
    rfl
  | succ fuel ih =>
    intro u buf hu
    rw [Nat.toDigitsCore]
    by_cases h10 : u ≥ 10
    · have hne : ¬ (u / 10 = 0) := by omega
      have hk : u - u / 10 * 10 = u % 10 := by omega
      simp only [fmt.fmtDigits, h10, if_true, hne, if_false, hk]
      rw [fmt.digitChar_eq _ (Nat.mod_lt _ (by omega))]
      exact ih _ _ (by omega)
    · have hz : u / 10 = 0 := by omega
      have hm : u % 10 = u := by omega
      simp only [fmt.fmtDigits, h10, if_false, hz, if_true, hm]
      rw [fmt.digitChar_eq _ (by omega)]

/-- The rendering of `%d` is the decimal rendering `toString` of the integer. -/
theorem fmt.fmtInteger_eq_toString (n : Int) : String.mk (fmt.fmtInteger n) = toString n := by
  cases n with
  | ofNat m =>
    have : ¬ ((Int.ofNat m) < 0) := by simp
    simp only [fmt.fmtInteger, this, if_false]
    show String.mk (fmt.fmtDigits m m []) = toString (Int.ofNat m)
    rw [fmt.fmtDigits_eq_toDigitsCore m m [] (le_refl _)]
    rfl
  | negSucc m =>
    have : (Int.negSucc m) < 0 := Int.negSucc_lt_zero m
    simp only [fmt.fmtInteger, this, if_true]
    show String.mk ('-' :: fmt.fmtDigits (m + 1) (m + 1) []) = toString (Int.negSucc m)
    rw [fmt.fmtDigits_eq_toDigitsCore (m + 1) (m + 1) [] (le_refl _)]
    rfl

theorem time.unitMap_some (u : String) (unit : Nat) (h : time.unitMap u = some unit) :
    u.data ≠ [] ∧ (∀ c ∈ u.data, strconv.isDigit c = false ∧ c ≠ '.') ∧ 1 ≤ unit := by
  unfold time.unitMap at h
  split_ifs at h with h1 h2 h3 h4 h5 h6 h7 h8
  all_goals (subst_vars; simp only [Option.some.injEq] at h; subst h; decide)

theorem time.leadingInt_digits (ds : List Char) (hd : ∀ c ∈ ds, strconv.isDigit c = true)
    (rest : List Char) (hrest : ∀ c, rest.head? = some c → strconv.isDigit c = false) :
    ∀ x, digitsFrom x ds ≤ 2 ^ 63 →
      time.leadingInt (ds ++ rest) x = some (digitsFrom x ds, rest) := by
  induction ds with
  | nil =>
    intro x _
    cases rest with
    | nil => rfl
    | cons c rest =>
      have hc := hrest c rfl
      have hout : c < '0' ∨ c > '9' := by
        by_contra hcon
        rw [← strconv.isDigit_iff_not_outside] at hcon
        rw [hcon] at hc
        exact absurd hc (by decide)
      simp only [List.nil_append, time.leadingInt, hout, if_true]
      rfl
  | cons c ds ih =>
    intro x hx
    have hc := hd c (List.mem_cons_self _ _)
    have hin : ¬ (c < '0' ∨ c > '9') := (strconv.isDigit_iff_not_outside c).1 hc
    have hv := strconv.digitVal_lt c hc
    rw [digitsFrom_cons] at hx
    have hle := le_digitsFrom ds (x * 10 + strconv.digitVal c)
    have h63 : (2 : Nat) ^ 63 = 9223372036854775808 := by norm_num
    rw [h63] at hx
    have h0 : '0'.toNat = 48 := rfl
    have h1 : ¬ x > 2 ^ 63 / 10 := by rw [h63]; omega
    have h2 : x * 10 + c.toNat - '0'.toNat = x * 10 + strconv.digitVal c := by
      rw [h0]; omega
    have h3 : ¬ x * 10 + strconv.digitVal c > 2 ^ 63 := by rw [h63]; omega
    simp only [List.cons_append, time.leadingInt, hin, if_false, h1, h2, h3]
    rw [digitsFrom_cons]
    exact ih (fun y hy => hd y (List.mem_cons_of_mem _ hy)) _ (by rw [h63]; exact hx)

theorem time.unitSpan_unit (u : List Char)
    (hu : ∀ c ∈ u, strconv.isDigit c = false ∧ c ≠ '.') : time.unitSpan u = (u, []) := by
  have hall : ∀ c ∈ u,
      (!(decide (c = '.') || (decide ('0' ≤ c) && decide (c ≤ '9')))) = true := by
    intro c hc
    have h := hu c hc
    have h1 : (decide ('0' ≤ c) && decide (c ≤ '9')) = false := h.1
    simp [h1, h.2]
  simp only [time.unitSpan, List.span_eq_take_drop]
  rw [List.takeWhile_eq_self_iff.2 hall, List.dropWhile_eq_nil_iff.2 hall]

/-- `ParseDuration` reads every duration written as magnitude and unit, whose
value fits an `int64` count of nanoseconds, as the duration it denotes. -/
theorem time.ParseDuration_magnitudeUnit (fp : time.FracProduct) (s : String) (d : Nat)
    (h : magnitudeUnit s = some d) (hd : d ≤ 2 ^ 63 - 1) :
    time.ParseDuration fp s = ((d : Int), none) := by
  have h63 : (2 : Nat) ^ 63 = 9223372036854775808 := by norm_num
  have h64 : (2 : Nat) ^ 64 = 18446744073709551616 := by norm_num
  obtain ⟨data⟩ := s
  simp only [magnitudeUnit] at h
  split at h
  · simp at h
  · rename_i hne
    rw [Option.map_eq_some'] at h
    obtain ⟨unit, hunit, hval⟩ := h
    obtain ⟨hune, hunondigit, hunit1⟩ := time.unitMap_some _ _ hunit
    simp only at hune hunondigit
    set ds := data.takeWhile strconv.isDigit with hds
    set u := data.dropWhile strconv.isDigit with hu
    have hdata : data = ds ++ u := (List.takeWhile_append_dropWhile _ _).symm
    have hdig : ∀ c ∈ ds, strconv.isDigit c = true := fun c hc => List.mem_takeWhile_imp hc
    have hv : digitsFrom 0 ds ≤ 2 ^ 63 / unit := by
      rw [Nat.le_div_iff_mul_le (by omega)]
      omega
    have hv2 : digitsFrom 0 ds ≤ 2 ^ 63 := le_trans hv (Nat.div_le_self _ _)
    have hlead := time.leadingInt_digits ds hdig u
      (fun c hc => (hunondigit c (List.mem_of_mem_head? hc)).1) 0 hv2
    rw [← hdata] at hlead
    cases hcs : ds with
    | nil => exact absurd hcs hne
    | cons c ds1 =>
      have hc : strconv.isDigit c = true := hdig c (by rw [hcs]; exact List.mem_cons_self _ _)
      have hc1 : c ≠ '-' := by
        intro hx; rw [hx] at hc; exact absurd hc (by decide)
      have hc2 : c ≠ '+' := by
        intro hx; rw [hx] at hc; exact absurd hc (by decide)
      have hc3 : c ≠ '.' := by
        intro hx; rw [hx] at hc; exact absurd hc (by decide)
      have hc4 : (decide ('0' ≤ c) && decide (c ≤ '9')) = true := hc
      cases hus : u with
      | nil => exact absurd hus hune
      | cons c1 u1 =>
        have hdot : c1 ≠ '.' := (hunondigit c1 (by rw [hus]; exact List.mem_cons_self _ _)).2
        have hdata2 : data = c :: (ds1 ++ c1 :: u1) := by rw [hdata, hcs, hus]; rfl
        have hlen : (c :: (ds1 ++ c1 :: u1)).length ≠ (c1 :: u1).length := by
          simp only [List.length_cons, List.length_append]
          omega
        have hspan := time.unitSpan_unit u hunondigit
        rw [hus] at hspan hunit
        rw [hdata2] at hlead
        rw [hus] at hlead
        have hmul : digitsFrom 0 ds * unit ≤ 9223372036854775807 := by omega
        have hnot0 : ¬ (c :: (ds1 ++ c1 :: u1) = ['0']) := by
          simp
        simp only [time.ParseDuration, hdata2, List.head?_cons, Option.some.injEq, hc1, hc2,
          decide_False, Bool.or_self, Bool.false_eq_true, if_false, hnot0, List.length_cons,
          time.parseLoop, hc3, hc4, Bool.or_true, Bool.not_true, hlead, hlen, ne_eq,
          not_false_eq_true, decide_True, hdot, List.tail_cons, Bool.false_and, Bool.not_false,
          and_false, hspan, hunit, reduceCtorEq]
        rw [h63] at hd hv
        have e1 : ¬ (ds1.length + (u1.length + 1) = u1.length) := by omega
        have e2 : ¬ (9223372036854775808 / unit < digitsFrom 0 ds) := by omega
        have e3 : d % 18446744073709551616 = d := by omega
        have e4 : ¬ (9223372036854775808 < d) := by omega
        have e5 : ¬ (9223372036854775807 < d) := by omega
        simp [time.parseLoop, hval, e1, e2, e3, e4, e5]

theorem time.leadingInt_length (s : List Char) :
    ∀ (x v : Nat) (s1 : List Char), time.leadingInt s x = some (v, s1) → s1.length ≤ s.length := by
  induction s with
  | nil =>
    intro x v s1 h
    simp only [time.leadingInt, Option.some.injEq, Prod.mk.injEq] at h
    rw [← h.2]
  | cons c rest ih =>
    intro x v s1 h
    simp only [time.leadingInt] at h
    split_ifs at h
    · simp only [Option.some.injEq, Prod.mk.injEq] at h
      rw [← h.2]
    · have := ih _ _ _ h
      simp only [List.length_cons]
      omega

theorem time.leadingFraction_length (s : List Char) :
    ∀ (x scale : Nat) (overflow : Bool),
      (time.leadingFraction s x scale overflow).2.2.length ≤ s.length := by
  induction s with
  | nil => intro x scale overflow; simp [time.leadingFraction]
  | cons c rest ih =>
    intro x scale overflow
    simp only [time.leadingFraction]
    split_ifs
    · exact le_refl _
    all_goals
      simp only [List.length_cons]
      exact Nat.le_succ_of_le (ih _ _ _)

theorem time.unitSpan_length (s : List Char) (h : (time.unitSpan s).1 ≠ []) :
    (time.unitSpan s).2.length < s.length := by
  simp only [time.unitSpan, List.span_eq_take_drop] at h ⊢
  have hlen := congrArg List.length (List.takeWhile_append_dropWhile
    (fun c => !(decide (c = '.') || (decide ('0' ≤ c) && decide (c ≤ '9')))) s)
  rw [List.length_append] at hlen
  have hpos := List.length_pos.2 h
  omega

/-- The loop of `ParseDuration` never runs out of fuel when it is given the
length of its input: every round consumes at least one character. -/
theorem time.parseLoop_enough_fuel (fp : time.FracProduct) (fuel : Nat) :
    ∀ (s : List Char) (d : Nat), s.length ≤ fuel →
      time.parseLoop fp fuel s d ≠ time.Loop.outOfFuel := by
  induction fuel with
  | zero =>
    intro s d hs
    have : s = [] := List.length_eq_zero.1 (by omega)
    subst this
    simp [time.parseLoop]
  | succ fuel ih =>
    intro s d hs
    cases s with
    | nil => simp [time.parseLoop]
    | cons c rest =>
      simp only [time.parseLoop]
      by_cases h1 : (!(decide (c = '.') || (decide ('0' ≤ c) && decide (c ≤ '9')))) = true
      · rw [if_pos h1]; simp
      · rw [if_neg h1]
        cases hl : time.leadingInt (c :: rest) 0 with
        | none => simp
        | some p =>
          obtain ⟨v, s1⟩ := p
          have hs1 := time.leadingInt_length _ _ _ _ hl
          simp only
          have hf : (if decide (s1.head? = some '.') = true then
              time.leadingFraction s1.tail 0 1 false else (0, 1, s1)).2.2.length
                ≤ s1.length := by
            split_ifs
            · exact le_trans (time.leadingFraction_length _ _ _ _) (by simp)
            · exact le_refl _
          generalize (if decide (s1.head? = some '.') = true then
              time.leadingFraction s1.tail 0 1 false else (0, 1, s1)) = frac at hf ⊢
          have hu := time.unitSpan_length frac.2.2
          generalize time.unitSpan frac.2.2 = u at hu ⊢
          by_cases h2 : (!decide ((c :: rest).length ≠ s1.length)) = true ∧
              (!(decide (s1.head? = some '.') &&
                decide (s1.tail.length ≠ frac.2.2.length))) = true
          · rw [if_pos h2]; simp
          · rw [if_neg h2]
            by_cases h3 : u.1 = []
            · rw [if_pos h3]; simp
            · rw [if_neg h3]
              cases hm : time.unitMap (String.mk u.1) with
              | none => simp
              | some unit =>
                simp only
                have hlen : u.2.length ≤ fuel := by
                  have := hu h3
                  simp only [List.length_cons] at hs hs1
                  omega
                split_ifs
                all_goals first
                  | exact ih _ _ hlen
                  | simp

/-! ## Theorems: `Load` -/

theorem config.Load_eq (fp : time.FracProduct) (env : os.Environ) :
    config.Load fp env =
      if (config.resolved fp env).Gateway.FailurePolicy ≠ "fail-open" ∧
          (config.resolved fp env).Gateway.FailurePolicy ≠ "fail-closed" then
        (none, some config.invalidPolicyMessage)
      else (some (config.resolved fp env), none) := rfl

theorem config.Load_ok (fp : time.FracProduct) (env : os.Environ) (cfg : config.Config)
    (h : config.Load fp env = (some cfg, none)) : cfg = config.resolved fp env := by
  rw [config.Load_eq] at h
  split at h
  · simp at h
  · simp only [Prod.mk.injEq, Option.some.injEq, and_true] at h
    exact h.symm

theorem config.getEnv_of_set (env : os.Environ) (key d v : String)
    (h : os.Getenv env key = v) (hv : v ≠ "") : config.getEnv env key d = v := by
  simp [config.getEnv, h, hv]

theorem config.getEnv_of_empty (env : os.Environ) (key d : String)
    (h : os.Getenv env key = "") : config.getEnv env key d = d := by
  simp [config.getEnv, h]

theorem config.getEnvAsInt_of_empty (env : os.Environ) (key : String) (d : Int)
    (h : os.Getenv env key = "") : config.getEnvAsInt env key d = d := by
  simp [config.getEnvAsInt, h]

theorem config.getEnvAsDuration_of_empty (fp : time.FracProduct) (env : os.Environ)
    (key : String) (d : time.Duration) (h : os.Getenv env key = "") :
    config.getEnvAsDuration fp env key d = d := by
  simp [config.getEnvAsDuration, h]

theorem config.getEnvAsInt_of_error (env : os.Environ) (key : String) (d : Int)
    (h : (strconv.Atoi (os.Getenv env key)).2 ≠ none) : config.getEnvAsInt env key d = d := by
  simp [config.getEnvAsInt, h]

theorem config.getEnvAsDuration_of_error (fp : time.FracProduct) (env : os.Environ)
    (key : String) (d : time.Duration)
    (h : (time.ParseDuration fp (os.Getenv env key)).2 ≠ none) :
    config.getEnvAsDuration fp env key d = d := by
  simp [config.getEnvAsDuration, h]

theorem config.stringSettings_resolved (fp : time.FracProduct) (env : os.Environ) :
    ∀ s ∈ config.stringSettings,
      s.field (config.resolved fp env) = config.getEnv env s.key s.default := by
  intro s hs
  simp only [config.stringSettings, List.mem_cons, List.mem_singleton, List.not_mem_nil,
    or_false] at hs
  rcases hs with rfl | rfl | rfl | rfl | rfl | rfl | rfl | rfl | rfl <;> rfl

theorem config.intSettings_resolved (fp : time.FracProduct) (env : os.Environ) :
    ∀ s ∈ config.intSettings,
      s.field (config.resolved fp env) = config.getEnvAsInt env s.key s.default := by
  intro s hs
  simp only [config.intSettings, List.mem_cons, List.mem_singleton, List.not_mem_nil,
    or_false] at hs
  rcases hs with rfl | rfl | rfl | rfl | rfl | rfl | rfl <;> rfl

theorem config.durationSettings_resolved (fp : time.FracProduct) (env : os.Environ) :
    ∀ s ∈ config.durationSettings,
      s.field (config.resolved fp env) = config.getEnvAsDuration fp env s.key s.default := by
  intro s hs
  simp only [config.durationSettings, List.mem_cons, List.mem_singleton, List.not_mem_nil,
    or_false] at hs
  rcases hs with rfl | rfl | rfl | rfl | rfl | rfl | rfl | rfl | rfl <;> rfl

/-- C1 (amended): for every environment in which GATEWAY_FAILURE_POLICY is set to
a non-empty value other than exactly "fail-open" or "fail-closed", whatever the
other settings are, `Load` returns a nil Config and a non-nil error. -/
theorem load_rejects_invalid_failure_policy (fp : time.FracProduct) (env : os.Environ)
    (v : String) (hset : env "GATEWAY_FAILURE_POLICY" = some v) (hne : v ≠ "")
    (hopen : v ≠ "fail-open") (hclosed : v ≠ "fail-closed") :
    (config.Load fp env).1 = none ∧ (config.Load fp env).2 ≠ none := by
  have hg : os.Getenv env "GATEWAY_FAILURE_POLICY" = v := by simp [os.Getenv, hset]
  have hp : (config.resolved fp env).Gateway.FailurePolicy = v :=
    config.getEnv_of_set env _ _ v hg hne
  rw [config.Load_eq, hp]
  simp [hopen, hclosed]

/-- C1 (witness): the policies "invalid-policy", "Fail-Open" (another letter case)
and " fail-open" (a leading blank) are all rejected. -/
theorem load_rejects_invalid_failure_policy_witness :
    ((config.Load time.exactFrac (envOf [("GATEWAY_FAILURE_POLICY", "invalid-policy")])).1 = none ∧
      (config.Load time.exactFrac (envOf [("GATEWAY_FAILURE_POLICY", "invalid-policy")])).2 ≠ none) ∧
    ((config.Load time.exactFrac (envOf [("GATEWAY_FAILURE_POLICY", "Fail-Open")])).1 = none ∧
      (config.Load time.exactFrac (envOf [("GATEWAY_FAILURE_POLICY", "Fail-Open")])).2 ≠ none) ∧
    ((config.Load time.exactFrac (envOf [("GATEWAY_FAILURE_POLICY", " fail-open")])).1 = none ∧
      (config.Load time.exactFrac (envOf [("GATEWAY_FAILURE_POLICY", " fail-open")])).2 ≠ none) :=
  ⟨load_rejects_invalid_failure_policy _ _ "invalid-policy" (by decide) (by decide) (by decide)
      (by decide),
    load_rejects_invalid_failure_policy _ _ "Fail-Open" (by decide) (by decide) (by decide)
      (by decide),
    load_rejects_invalid_failure_policy _ _ " fail-open" (by decide) (by decide) (by decide)
      (by decide)⟩

/-- C1 (counterexample): with GATEWAY_FAILURE_POLICY set to the empty string, a
value other than "fail-open" and "fail-closed", `Load` returns the default
configuration and no error. -/
theorem load_accepts_empty_failure_policy :
    envOf [("GATEWAY_FAILURE_POLICY", "")] "GATEWAY_FAILURE_POLICY" = some "" ∧
    "" ≠ "fail-open" ∧ "" ≠ "fail-closed" ∧
    config.Load time.exactFrac (envOf [("GATEWAY_FAILURE_POLICY", "")]) =
      (some config.documentedDefaults, none) := by
  decide

/-- C2: for every environment, if `Load` returns no error then it returns a
Config whose failure policy is exactly "fail-open" or exactly "fail-closed"; and
`Load` never returns both a Config and an error. -/
theorem load_success_has_valid_failure_policy (fp : time.FracProduct) (env : os.Environ) :
    ((config.Load fp env).2 = none →
      ∃ cfg, (config.Load fp env).1 = some cfg ∧
        (cfg.Gateway.FailurePolicy = "fail-open" ∨ cfg.Gateway.FailurePolicy = "fail-closed")) ∧
    ¬ ((config.Load fp env).1 ≠ none ∧ (config.Load fp env).2 ≠ none) := by
  rw [config.Load_eq]
  split
  · simp
  · rename_i h
    refine ⟨fun _ => ⟨config.resolved fp env, rfl, ?_⟩, by simp⟩
    by_cases h1 : (config.resolved fp env).Gateway.FailurePolicy = "fail-open"
    · exact Or.inl h1
    · by_cases h2 : (config.resolved fp env).Gateway.FailurePolicy = "fail-closed"
      · exact Or.inr h2
      · exact absurd ⟨h1, h2⟩ h

/-- C2 (witness): the environment of the test `TestLoad_EnvironmentVariables`
loads without error, with the policy "fail-open". -/
theorem load_success_has_valid_failure_policy_witness :
    (config.Load time.exactFrac
        (envOf [("SERVER_PORT", "9000"), ("SERVER_READ_TIMEOUT", "15s"),
          ("GATEWAY_FAILURE_POLICY", "fail-open")])).2 = none ∧
    ∃ cfg,
      (config.Load time.exactFrac
        (envOf [("SERVER_PORT", "9000"), ("SERVER_READ_TIMEOUT", "15s"),
          ("GATEWAY_FAILURE_POLICY", "fail-open")])).1 = some cfg ∧
      (cfg.Gateway.FailurePolicy = "fail-open" ∨ cfg.Gateway.FailurePolicy = "fail-closed") :=
  ⟨by decide, (load_success_has_valid_failure_policy _ _).1 (by decide)⟩

/-- C3: in every environment in which each recognized setting is unset or empty,
`Load` succeeds and returns exactly the documented defaults. -/
theorem load_defaults (fp : time.FracProduct) (env : os.Environ)
    (h : ∀ key ∈ config.recognizedSettings, os.Getenv env key = "") :
    config.Load fp env = (some config.documentedDefaults, none) := by
  have hr : config.resolved fp env = config.documentedDefaults := by
    simp only [config.resolved]
    rw [config.getEnv_of_empty env _ _ (h "SERVER_HOST" (by decide)),
      config.getEnv_of_empty env _ _ (h "REDIS_ADDR" (by decide)),
      config.getEnv_of_empty env _ _ (h "REDIS_PASSWORD" (by decide)),
      config.getEnv_of_empty env _ _ (h "POSTGRES_HOST" (by decide)),
      config.getEnv_of_empty env _ _ (h "POSTGRES_USER" (by decide)),
      config.getEnv_of_empty env _ _ (h "POSTGRES_PASSWORD" (by decide)),
      config.getEnv_of_empty env _ _ (h "POSTGRES_DB" (by decide)),
      config.getEnv_of_empty env _ _ (h "POSTGRES_SSLMODE" (by decide)),
      config.getEnv_of_empty env _ _ (h "GATEWAY_FAILURE_POLICY" (by decide)),
      config.getEnvAsInt_of_empty env _ _ (h "SERVER_PORT" (by decide)),
      config.getEnvAsInt_of_empty env _ _ (h "REDIS_DB" (by decide)),
      config.getEnvAsInt_of_empty env _ _ (h "REDIS_MAX_RETRIES" (by decide)),
      config.getEnvAsInt_of_empty env _ _ (h "REDIS_POOL_SIZE" (by decide)),
      config.getEnvAsInt_of_empty env _ _ (h "POSTGRES_PORT" (by decide)),
      config.getEnvAsInt_of_empty env _ _ (h "POSTGRES_MAX_OPEN_CONNS" (by decide)),
      config.getEnvAsInt_of_empty env _ _ (h "POSTGRES_MAX_IDLE_CONNS" (by decide)),
      config.getEnvAsDuration_of_empty fp env _ _ (h "SERVER_READ_TIMEOUT" (by decide)),
      config.getEnvAsDuration_of_empty fp env _ _ (h "SERVER_WRITE_TIMEOUT" (by decide)),
      config.getEnvAsDuration_of_empty fp env _ _ (h "SERVER_IDLE_TIMEOUT" (by decide)),
      config.getEnvAsDuration_of_empty fp env _ _ (h "REDIS_DIAL_TIMEOUT" (by decide)),
      config.getEnvAsDuration_of_empty fp env _ _ (h "REDIS_READ_TIMEOUT" (by decide)),
      config.getEnvAsDuration_of_empty fp env _ _ (h "REDIS_WRITE_TIMEOUT" (by decide)),
      config.getEnvAsDuration_of_empty fp env _ _ (h "POSTGRES_CONN_MAX_LIFETIME" (by decide)),
      config.getEnvAsDuration_of_empty fp env _ _ (h "GATEWAY_UPSTREAM_TIMEOUT" (by decide)),
      config.getEnvAsDuration_of_empty fp env _ _ (h "GATEWAY_POLICY_CACHE_TTL" (by decide))]
    rfl
  rw [config.Load_eq, hr]
  rfl

/-- C3 (witness): the environment with nothing set, and one in which recognized
settings are set to the empty string and an unrelated variable is set. -/
theorem load_defaults_witness :
    config.Load time.exactFrac envUnset = (some config.documentedDefaults, none) ∧
    config.Load time.exactFrac
        (envOf [("SERVER_PORT", ""), ("GATEWAY_FAILURE_POLICY", ""), ("HOME", "/root")]) =
      (some config.documentedDefaults, none) :=
  ⟨load_defaults _ _ (by decide), load_defaults _ _ (by decide)⟩


/-- C4: with a valid failure policy (unset, empty, "fail-open" or "fail-closed"),
`Load` succeeds whatever the other settings hold, and every integer-valued or
duration-valued setting whose non-empty value fails to parse leaves its field at
the documented default. -/
theorem load_absorbs_malformed_values (fp : time.FracProduct) (env : os.Environ)
    (hpol : os.Getenv env "GATEWAY_FAILURE_POLICY" = "" ∨
      os.Getenv env "GATEWAY_FAILURE_POLICY" = "fail-open" ∨
      os.Getenv env "GATEWAY_FAILURE_POLICY" = "fail-closed") :
    ∃ cfg, config.Load fp env = (some cfg, none) ∧
      (∀ s ∈ config.intSettings, os.Getenv env s.key ≠ "" →
        (strconv.Atoi (os.Getenv env s.key)).2 ≠ none → s.field cfg = s.default) ∧
      (∀ s ∈ config.durationSettings, os.Getenv env s.key ≠ "" →
        (time.ParseDuration fp (os.Getenv env s.key)).2 ≠ none → s.field cfg = s.default) := by
  have hp : (config.resolved fp env).Gateway.FailurePolicy = "fail-open" ∨
      (config.resolved fp env).Gateway.FailurePolicy = "fail-closed" := by
    show config.getEnv env "GATEWAY_FAILURE_POLICY" "fail-closed" = "fail-open" ∨
      config.getEnv env "GATEWAY_FAILURE_POLICY" "fail-closed" = "fail-closed"
    rcases hpol with h | h | h
    · exact Or.inr (config.getEnv_of_empty env _ _ h)
    · exact Or.inl (config.getEnv_of_set env _ _ _ h (by decide))
    · exact Or.inr (config.getEnv_of_set env _ _ _ h (by decide))
  refine ⟨config.resolved fp env, ?_, ?_, ?_⟩
  · rw [config.Load_eq]
    rcases hp with h | h <;> simp [h]
  · intro s hs _ herr
    rw [config.intSettings_resolved fp env s hs]
    exact config.getEnvAsInt_of_error env _ _ herr
  · intro s hs _ herr
    rw [config.durationSettings_resolved fp env s hs]
    exact config.getEnvAsDuration_of_error fp env _ _ herr

/-- C4 (witness): a port that is not a number, a database index beyond the `int`
range, a timeout without a unit and a lifetime in words all fall back to
their defaults, and `Load` succeeds. -/
theorem load_absorbs_malformed_values_witness :
    ∃ cfg,
      config.Load time.exactFrac
        (envOf [("SERVER_PORT", "abc"), ("REDIS_DB", "99999999999999999999"),
          ("SERVER_READ_TIMEOUT", "15"), ("POSTGRES_CONN_MAX_LIFETIME", "5 minutes"),
          ("GATEWAY_FAILURE_POLICY", "fail-open")]) = (some cfg, none) ∧
      cfg.Server.Port = 8080 ∧ cfg.Redis.DB = 0 ∧ cfg.Server.ReadTimeout = 10000000000 ∧
      cfg.Postgres.ConnMaxLifetime = 300000000000 := by
  obtain ⟨cfg, hload, hint, hdur⟩ :=
    load_absorbs_malformed_values time.exactFrac
      (envOf [("SERVER_PORT", "abc"), ("REDIS_DB", "99999999999999999999"),
        ("SERVER_READ_TIMEOUT", "15"), ("POSTGRES_CONN_MAX_LIFETIME", "5 minutes"),
        ("GATEWAY_FAILURE_POLICY", "fail-open")]) (by decide)
  exact ⟨cfg, hload,
    hint { key := "SERVER_PORT", default := 8080, field := fun c => c.Server.Port }
      (by simp [config.intSettings]) (by decide) (by decide),
    hint { key := "REDIS_DB", default := 0, field := fun c => c.Redis.DB }
      (by simp [config.intSettings]) (by decide) (by decide),
    hdur { key := "SERVER_READ_TIMEOUT", default := 10000000000,
           field := fun c => c.Server.ReadTimeout }
      (by simp [config.durationSettings]) (by decide) (by decide),
    hdur { key := "POSTGRES_CONN_MAX_LIFETIME", default := 300000000000,
           field := fun c => c.Postgres.ConnMaxLifetime }
      (by simp [config.durationSettings]) (by decide) (by decide)⟩

theorem config.getEnvAsInt_of_literal (env : os.Environ) (key : String) (d n : Int)
    (h : decimalLiteral (os.Getenv env key) = some n) (hlo : -(2 : Int) ^ 63 ≤ n)
    (hhi : n < (2 : Int) ^ 63) : config.getEnvAsInt env key d = n := by
  have hne : os.Getenv env key ≠ "" := by
    intro h0
    rw [h0, show decimalLiteral "" = none by decide] at h
    exact Option.noConfusion h
  simp [config.getEnvAsInt, hne, strconv.Atoi_decimalLiteral _ n h hlo hhi]

theorem config.getEnvAsDuration_of_literal (fp : time.FracProduct) (env : os.Environ)
    (key : String) (d : time.Duration) (n : Nat)
    (h : magnitudeUnit (os.Getenv env key) = some n) (hn : n ≤ 2 ^ 63 - 1) :
    config.getEnvAsDuration fp env key d = (n : Int) := by
  have hne : os.Getenv env key ≠ "" := by
    intro h0
    rw [h0, show magnitudeUnit "" = none by decide] at h
    exact Option.noConfusion h
  simp [config.getEnvAsDuration, hne, time.ParseDuration_magnitudeUnit fp _ n h hn]

/-- C5 (amended): in the Config of a successful `Load`, a string setting with a
non-empty value yields exactly that value; an integer setting whose value is a
base-10 integer literal within the 64-bit `int` range yields that integer, with
no further range check; a duration setting whose value is magnitude+unit, and
fits an `int64` count of nanoseconds, yields that duration; and each field
depends only on its own named setting: two environments that agree on a setting
load the same value into its field. -/
theorem load_reflects_valid_literals (fp : time.FracProduct) (env : os.Environ)
    (cfg : config.Config) (h : config.Load fp env = (some cfg, none)) :
    (∀ s ∈ config.stringSettings, os.Getenv env s.key ≠ "" →
      s.field cfg = os.Getenv env s.key) ∧
    (∀ s ∈ config.intSettings, ∀ n : Int, decimalLiteral (os.Getenv env s.key) = some n →
      -(2 : Int) ^ 63 ≤ n → n < (2 : Int) ^ 63 → s.field cfg = n) ∧
    (∀ s ∈ config.durationSettings, ∀ d : Nat, magnitudeUnit (os.Getenv env s.key) = some d →
      d ≤ 2 ^ 63 - 1 → s.field cfg = (d : Int)) ∧
    (∀ (env2 : os.Environ) (cfg2 : config.Config), config.Load fp env2 = (some cfg2, none) →
      (∀ s ∈ config.stringSettings, os.Getenv env2 s.key = os.Getenv env s.key →
        s.field cfg2 = s.field cfg) ∧
      (∀ s ∈ config.intSettings, os.Getenv env2 s.key = os.Getenv env s.key →
        s.field cfg2 = s.field cfg) ∧
      (∀ s ∈ config.durationSettings, os.Getenv env2 s.key = os.Getenv env s.key →
        s.field cfg2 = s.field cfg)) := by
  have hc := config.Load_ok fp env cfg h
  subst hc
  refine ⟨?_, ?_, ?_, ?_⟩
  · intro s hs hne
    rw [config.stringSettings_resolved fp env s hs]
    exact config.getEnv_of_set env _ _ _ rfl hne
  · intro s hs n hn hlo hhi
    rw [config.intSettings_resolved fp env s hs]
    exact config.getEnvAsInt_of_literal env _ _ n hn hlo hhi
  · intro s hs d hd hr
    rw [config.durationSettings_resolved fp env s hs]
    exact config.getEnvAsDuration_of_literal fp env _ _ d hd hr
  · intro env2 cfg2 h2
    have hc2 := config.Load_ok fp env2 cfg2 h2
    subst hc2
    refine ⟨?_, ?_, ?_⟩
    · intro s hs heq
      rw [config.stringSettings_resolved fp env s hs, config.stringSettings_resolved fp env2 s hs]
      simp only [config.getEnv, heq]
    · intro s hs heq
      rw [config.intSettings_resolved fp env s hs, config.intSettings_resolved fp env2 s hs]
      simp only [config.getEnvAsInt, heq]
    · intro s hs heq
      rw [config.durationSettings_resolved fp env s hs,
        config.durationSettings_resolved fp env2 s hs]
      simp only [config.getEnvAsDuration, heq]

/-- C5 (witness): SERVER_PORT=9000 gives 9000, SERVER_READ_TIMEOUT=15s gives
15,000,000,000 ns, the host is kept with its blanks and letter case, the ports
70000 and -1 are kept, and 5m gives 300,000,000,000 ns. -/
theorem load_reflects_valid_literals_witness :
    ∃ cfg, config.Load time.exactFrac envLiterals = (some cfg, none) ∧
      cfg.Server.Port = 9000 ∧ cfg.Server.ReadTimeout = 15000000000 ∧
      cfg.Gateway.FailurePolicy = "fail-open" ∧ cfg.Server.Host = " MyHost " ∧
      cfg.Postgres.Port = 70000 ∧ cfg.Redis.DB = -1 ∧
      cfg.Gateway.UpstreamTimeout = 300000000000 := by
  have hload : config.Load time.exactFrac envLiterals =
      (some (config.resolved time.exactFrac envLiterals), none) := by decide
  obtain ⟨hstr, hint, hdur, _⟩ := load_reflects_valid_literals _ _ _ hload
  exact ⟨_, hload,
    hint { key := "SERVER_PORT", default := 8080, field := fun c => c.Server.Port }
      (by simp [config.intSettings]) 9000 (by decide) (by decide) (by decide),
    hdur { key := "SERVER_READ_TIMEOUT", default := 10000000000,
           field := fun c => c.Server.ReadTimeout }
      (by simp [config.durationSettings]) 15000000000 (by decide) (by decide),
    hstr { key := "GATEWAY_FAILURE_POLICY", default := "fail-closed",
           field := fun c => c.Gateway.FailurePolicy }
      (by simp [config.stringSettings]) (by decide),
    hstr { key := "SERVER_HOST", default := "0.0.0.0", field := fun c => c.Server.Host }
      (by simp [config.stringSettings]) (by decide),
    hint { key := "POSTGRES_PORT", default := 5432, field := fun c => c.Postgres.Port }
      (by simp [config.intSettings]) 70000 (by decide) (by decide) (by decide),
    hint { key := "REDIS_DB", default := 0, field := fun c => c.Redis.DB }
      (by simp [config.intSettings]) (-1) (by decide) (by decide) (by decide),
    hdur { key := "GATEWAY_UPSTREAM_TIMEOUT", default := 30000000000,
           field := fun c => c.Gateway.UpstreamTimeout }
      (by simp [config.durationSettings]) 300000000000 (by decide) (by decide)⟩

/-- C5 (counterexample): SERVER_PORT=9223372036854775808 is a base-10 integer
literal and SERVER_READ_TIMEOUT=2562048h is magnitude+unit, yet the successful
`Load` yields the defaults 8080 and 10s for them, not the values they denote. -/
theorem load_defaults_on_out_of_range_literals :
    decimalLiteral "9223372036854775808" = some 9223372036854775808 ∧
    magnitudeUnit "2562048h" = some 9223372800000000000 ∧
    ∃ cfg,
      config.Load time.exactFrac
        (envOf [("SERVER_PORT", "9223372036854775808"),
          ("SERVER_READ_TIMEOUT", "2562048h")]) = (some cfg, none) ∧
      cfg.Server.Port = 8080 ∧ cfg.Server.Port ≠ 9223372036854775808 ∧
      cfg.Server.ReadTimeout = 10000000000 ∧ cfg.Server.ReadTimeout ≠ 9223372800000000000 :=
  ⟨by decide, by decide, config.resolved time.exactFrac
      (envOf [("SERVER_PORT", "9223372036854775808"), ("SERVER_READ_TIMEOUT", "2562048h")]),
    by decide, by decide, by decide, by decide, by decide⟩

/-! ## Theorems: the derived strings -/

theorem config.ServerAddr_eq (c : config.Config) :
    config.ServerAddr c = c.Server.Host ++ ":" ++ toString c.Server.Port := by
  rw [← fmt.fmtInteger_eq_toString]
  simp [config.ServerAddr, fmt.Sprintf, fmt.doPrintf, String.ext_iff]

theorem config.PostgresDSN_eq (c : config.Config) :
    config.PostgresDSN c =
      "host=" ++ c.Postgres.Host ++ " port=" ++ toString c.Postgres.Port ++
        " user=" ++ c.Postgres.User ++ " password=" ++ c.Postgres.Password ++
        " dbname=" ++ c.Postgres.Database ++ " sslmode=" ++ c.Postgres.SSLMode := by
  rw [← fmt.fmtInteger_eq_toString]
  simp [config.PostgresDSN, fmt.Sprintf, fmt.doPrintf, String.ext_iff]

/-- C9: for every Config, `PostgresDSN` is exactly
`host=<Host> port=<Port in decimal> user=<User> password=<Password> dbname=<Database> sslmode=<SSLMode>`,
six key=value pairs in that order separated by single blanks, the values inserted
verbatim; so for host `localhost` and user `testuser` it contains
`host=localhost` and `user=testuser`. -/
theorem postgresDSN_format (c : config.Config) :
    config.PostgresDSN c =
      "host=" ++ c.Postgres.Host ++ " port=" ++ toString c.Postgres.Port ++
        " user=" ++ c.Postgres.User ++ " password=" ++ c.Postgres.Password ++
        " dbname=" ++ c.Postgres.Database ++ " sslmode=" ++ c.Postgres.SSLMode ∧
    (c.Postgres.Host = "localhost" → c.Postgres.User = "testuser" →
      (∃ before after, config.PostgresDSN c = before ++ "host=localhost" ++ after) ∧
      (∃ before after, config.PostgresDSN c = before ++ "user=testuser" ++ after)) := by
  refine ⟨config.PostgresDSN_eq c, fun hh hu => ⟨?_, ?_⟩⟩
  · refine ⟨"", " port=" ++ toString c.Postgres.Port ++
        " user=" ++ c.Postgres.User ++ " password=" ++ c.Postgres.Password ++
        " dbname=" ++ c.Postgres.Database ++ " sslmode=" ++ c.Postgres.SSLMode, ?_⟩
    rw [config.PostgresDSN_eq, hh]
    simp [String.ext_iff]
  · refine ⟨"host=" ++ c.Postgres.Host ++ " port=" ++ toString c.Postgres.Port ++ " ",
      " password=" ++ c.Postgres.Password ++
        " dbname=" ++ c.Postgres.Database ++ " sslmode=" ++ c.Postgres.SSLMode, ?_⟩
    rw [config.PostgresDSN_eq, hu]
    simp [String.ext_iff]

/-- C9 (witness): the Config of the test `TestPostgresDSN`, and one whose password
holds a blank and an equals sign, which are inserted as they are. -/
theorem postgresDSN_format_witness :
    config.PostgresDSN (dsnTestConfig "testpass") =
      "host=localhost port=5432 user=testuser password=testpass dbname=testdb sslmode=require" ∧
    config.PostgresDSN (dsnTestConfig "p w=x") =
      "host=localhost port=5432 user=testuser password=p w=x dbname=testdb sslmode=require" ∧
    (∃ before after,
      config.PostgresDSN (dsnTestConfig "testpass") = before ++ "host=localhost" ++ after) ∧
    (∃ before after,
      config.PostgresDSN (dsnTestConfig "testpass") = before ++ "user=testuser" ++ after) :=
  ⟨(postgresDSN_format (dsnTestConfig "testpass")).1.trans (by decide),
    (postgresDSN_format (dsnTestConfig "p w=x")).1.trans (by decide),
    ((postgresDSN_format (dsnTestConfig "testpass")).2 rfl rfl).1,
    ((postgresDSN_format (dsnTestConfig "testpass")).2 rfl rfl).2⟩

/-- C10: for every Config, `ServerAddr` is Server.Host, then ":", then the
base-10 rendering of Server.Port (a decimal literal that denotes the port); it
is a function of those two fields only; and for host 127.0.0.1 and port 8080 it
is "127.0.0.1:8080". -/
theorem serverAddr_format (c : config.Config) :
    config.ServerAddr c = c.Server.Host ++ ":" ++ toString c.Server.Port ∧
    decimalLiteral (toString c.Server.Port) = some c.Server.Port ∧
    (∀ c2 : config.Config, c2.Server.Host = c.Server.Host → c2.Server.Port = c.Server.Port →
      config.ServerAddr c2 = config.ServerAddr c) ∧
    (c.Server.Host = "127.0.0.1" → c.Server.Port = 8080 →
      config.ServerAddr c = "127.0.0.1:8080") := by
  refine ⟨config.ServerAddr_eq c, ?_, ?_, ?_⟩
  · rw [← fmt.fmtInteger_eq_toString]
    exact fmt.fmtInteger_decimalLiteral _
  · intro c2 hh hp
    rw [config.ServerAddr_eq, config.ServerAddr_eq, hh, hp]
  · intro hh hp
    rw [config.ServerAddr_eq, hh, hp]
    decide

/-- C10 (witness): the Config of the test `TestServerAddr`, and a negative port. -/
theorem serverAddr_format_witness :
    config.ServerAddr (addrTestConfig "127.0.0.1" 8080) = "127.0.0.1:8080" ∧
    config.ServerAddr (addrTestConfig "" (-1)) = ":-1" :=
  ⟨(serverAddr_format (addrTestConfig "127.0.0.1" 8080)).2.2.2 rfl rfl,
    (serverAddr_format (addrTestConfig "" (-1))).1.trans (by decide)⟩

/-! ## Theorems: the logger -/

theorem zerolog.hooks_foldl (g : zerolog.Globals) (now : Nat) (hooks : List zerolog.Hook) :
    ∀ buf : List zerolog.Field,
      hooks.foldl (zerolog.Hook.run g now) buf =
        buf ++ hooks.map fun _ => ("time", zerolog.Value.time now g.TimeFieldFormat) := by
  induction hooks with
  | nil => intro buf; simp
  | cons h hooks ih =>
    intro buf
    cases h
    simp [List.foldl_cons, zerolog.Hook.run, ih]

theorem observability.NewLogger_eq (env : os.Environ) (g : zerolog.Globals) (level : String) :
    observability.NewLogger env g level =
      ({ logger :=
          { w := zerolog.Writer.console
              (if os.Getenv env "LOG_FORMAT" = "console" then
                { Out := some os.File.Stdout, TimeFormat := time.RFC3339 }
              else zerolog.ConsoleWriter.zero)
            level := zerolog.TraceLevel
            context := []
            hooks := [zerolog.Hook.timestamp] } },
        { gLevel := if (zerolog.ParseLevel level).2 ≠ none then zerolog.InfoLevel
            else (zerolog.ParseLevel level).1
          TimeFieldFormat := time.RFC3339Nano }) := by
  by_cases h : os.Getenv env "LOG_FORMAT" = "console" <;>
    simp [observability.NewLogger, zerolog.SetGlobalLevel, zerolog.New, zerolog.Logger.With,
      zerolog.Context.Timestamp, zerolog.Context.Logger, h]

/-- The writer of the logger that `NewLogger` returns is always a
`ConsoleWriter`: bound to standard output when LOG_FORMAT is "console", the zero
value (no sink) otherwise. -/
theorem observability.NewLogger_writer (env : os.Environ) (g : zerolog.Globals)
    (level : String) :
    (observability.NewLogger env g level).1.logger.w =
      zerolog.Writer.console
        (if os.Getenv env "LOG_FORMAT" = "console" then
          { Out := some os.File.Stdout, TimeFormat := time.RFC3339 }
        else zerolog.ConsoleWriter.zero) := by
  rw [observability.NewLogger_eq]

/-- C7 (the code at the failing input): with LOG_FORMAT unset, the logger of
`NewLogger "info"` is built on the zero `ConsoleWriter`, not on a JSON sink, and
an Info call hands its record to a writer without a sink; with LOG_FORMAT set to
"console" the same call is written to standard output in console form. -/
theorem newLogger_default_format_has_no_sink :
    (observability.NewLogger envUnset initialGlobals "info").1.logger.w =
      zerolog.Writer.console zerolog.ConsoleWriter.zero ∧
    observability.Logger.Info (observability.NewLogger envUnset initialGlobals "info").2 0
      (observability.NewLogger envUnset initialGlobals "info").1 "started" =
      some (zerolog.Outcome.noSink
        [("level", zerolog.Value.str "info"), ("time", zerolog.Value.time 0 time.RFC3339Nano),
          ("message", zerolog.Value.str "started")]) ∧
    observability.Logger.Info (observability.NewLogger envConsole initialGlobals "info").2 0
      (observability.NewLogger envConsole initialGlobals "info").1 "started" =
      some (zerolog.Outcome.console os.File.Stdout
        [("level", zerolog.Value.str "info"), ("time", zerolog.Value.time 0 time.RFC3339Nano),
          ("message", zerolog.Value.str "started")]) := by
  decide


theorem observability.withFields_none (fields : List (String × zerolog.Operand)) :
    observability.withFields none fields = none := by
  induction fields with
  | nil => rfl
  | cons kv fields ih =>
    simpa [observability.withFields, zerolog.Event.Interface] using ih

theorem observability.withFields_some (fields : List (String × zerolog.Operand)) :
    ∀ e : zerolog.Event,
      observability.withFields (some e) fields =
        some { e with buf := e.buf ++ fields.map fun kv => (kv.1, kv.2.encode) } := by
  induction fields with
  | nil => intro e; simp [observability.withFields]
  | cons kv fields ih =>
    intro e
    have hstep : observability.withFields (some e) (kv :: fields) =
        observability.withFields
          (some { e with buf := e.buf ++ [(kv.1, kv.2.encode)] }) fields := rfl
    rw [hstep, ih]
    simp

theorem zerolog.newEvent_pos (g : zerolog.Globals) (l : zerolog.Logger) (lvl : zerolog.Level)
    (hs : l.should g lvl = true) (hne : lvl ≠ zerolog.NoLevel) :
    l.newEvent g lvl =
      some { w := l.w, level := lvl, ch := l.hooks,
             buf := [("level", zerolog.Value.str (zerolog.LevelString lvl))] ++ l.context } := by
  simp [zerolog.Logger.newEvent, hs, hne]

theorem zerolog.newEvent_neg (g : zerolog.Globals) (l : zerolog.Logger) (lvl : zerolog.Level)
    (hs : ¬ l.should g lvl = true) : l.newEvent g lvl = none := by
  simp [zerolog.Logger.newEvent, hs]

theorem zerolog.Msg_some (g : zerolog.Globals) (now : Nat) (e : zerolog.Event) (msg : String) :
    zerolog.Event.Msg g now (some e) msg =
      some (e.w.write (e.buf ++
        (e.ch.map fun _ => ("time", zerolog.Value.time now g.TimeFieldFormat)) ++
        (if msg ≠ "" then [("message", zerolog.Value.str msg)] else []))) := by
  by_cases hm : msg = "" <;> simp [zerolog.Event.Msg, zerolog.hooks_foldl, hm]

/-- What a call does: nothing when its level is filtered out; otherwise it
hands the writer the level, the context of the logger and the fields of the
call, in that order. -/
theorem observability.Call.run_eq (g : zerolog.Globals) (now : Nat) (l : observability.Logger)
    (c : observability.Call) :
    c.run g now l =
      if l.logger.should g c.level = true then
        some (l.logger.w.write
          ([("level", zerolog.Value.str (zerolog.LevelString c.level))] ++ l.logger.context ++
            c.tail g now l))
      else none := by
  by_cases hs : l.logger.should g c.level = true
  · rw [if_pos hs]
    cases c with
    | Info msg =>
      simp [observability.Call.run, observability.Logger.Info, zerolog.Logger.Info,
        zerolog.newEvent_pos g l.logger zerolog.InfoLevel hs (by decide), zerolog.Msg_some,
        observability.Call.tail, observability.Call.extra, observability.Call.msg,
        observability.Call.level]
    | Infof msg fields =>
      simp [observability.Call.run, observability.Logger.Infof, zerolog.Logger.Info,
        zerolog.newEvent_pos g l.logger zerolog.InfoLevel hs (by decide), zerolog.Msg_some,
        observability.Call.tail, observability.Call.extra, observability.Call.msg,
        observability.Call.level, observability.withFields_some]
    | Error msg =>
      simp [observability.Call.run, observability.Logger.Error, zerolog.Logger.Error,
        zerolog.newEvent_pos g l.logger zerolog.ErrorLevel hs (by decide), zerolog.Msg_some,
        observability.Call.tail, observability.Call.extra, observability.Call.msg,
        observability.Call.level]
    | Errorf msg err fields =>
      rcases err with _ | (m | _ | json) <;>
        simp [observability.Call.run, observability.Logger.Errorf, zerolog.Logger.Error,
          zerolog.newEvent_pos g l.logger zerolog.ErrorLevel hs (by decide), zerolog.Msg_some,
          observability.Call.tail, observability.Call.extra, observability.Call.msg,
          observability.Call.level, observability.withFields_some, zerolog.Event.Err]
    | Warn msg =>
      simp [observability.Call.run, observability.Logger.Warn, zerolog.Logger.Warn,
        zerolog.newEvent_pos g l.logger zerolog.WarnLevel hs (by decide), zerolog.Msg_some,
        observability.Call.tail, observability.Call.extra, observability.Call.msg,
        observability.Call.level]
    | Warnf msg fields =>
      simp [observability.Call.run, observability.Logger.Warnf, zerolog.Logger.Warn,
        zerolog.newEvent_pos g l.logger zerolog.WarnLevel hs (by decide), zerolog.Msg_some,
        observability.Call.tail, observability.Call.extra, observability.Call.msg,
        observability.Call.level, observability.withFields_some]
    | Debug msg =>
      simp [observability.Call.run, observability.Logger.Debug, zerolog.Logger.Debug,
        zerolog.newEvent_pos g l.logger zerolog.DebugLevel hs (by decide), zerolog.Msg_some,
        observability.Call.tail, observability.Call.extra, observability.Call.msg,
        observability.Call.level]
    | Debugf msg fields =>
      simp [observability.Call.run, observability.Logger.Debugf, zerolog.Logger.Debug,
        zerolog.newEvent_pos g l.logger zerolog.DebugLevel hs (by decide), zerolog.Msg_some,
        observability.Call.tail, observability.Call.extra, observability.Call.msg,
        observability.Call.level, observability.withFields_some]
  · rw [if_neg hs]
    cases c with
    | Info msg =>
      simp [observability.Call.run, observability.Logger.Info, zerolog.Logger.Info,
        zerolog.newEvent_neg g l.logger zerolog.InfoLevel hs, zerolog.Event.Msg]
    | Infof msg fields =>
      simp [observability.Call.run, observability.Logger.Infof, zerolog.Logger.Info,
        zerolog.newEvent_neg g l.logger zerolog.InfoLevel hs, zerolog.Event.Msg,
        observability.withFields_none]
    | Error msg =>
      simp [observability.Call.run, observability.Logger.Error, zerolog.Logger.Error,
        zerolog.newEvent_neg g l.logger zerolog.ErrorLevel hs, zerolog.Event.Msg]
    | Errorf msg err fields =>
      rcases err with _ | e <;>
        simp [observability.Call.run, observability.Logger.Errorf, zerolog.Logger.Error,
          zerolog.newEvent_neg g l.logger zerolog.ErrorLevel hs, zerolog.Event.Msg,
          observability.withFields_none, zerolog.Event.Err]
    | Warn msg =>
      simp [observability.Call.run, observability.Logger.Warn, zerolog.Logger.Warn,
        zerolog.newEvent_neg g l.logger zerolog.WarnLevel hs, zerolog.Event.Msg]
    | Warnf msg fields =>
      simp [observability.Call.run, observability.Logger.Warnf, zerolog.Logger.Warn,
        zerolog.newEvent_neg g l.logger zerolog.WarnLevel hs, zerolog.Event.Msg,
        observability.withFields_none]
    | Debug msg =>
      simp [observability.Call.run, observability.Logger.Debug, zerolog.Logger.Debug,
        zerolog.newEvent_neg g l.logger zerolog.DebugLevel hs, zerolog.Event.Msg]
    | Debugf msg fields =>
      simp [observability.Call.run, observability.Logger.Debugf, zerolog.Logger.Debug,
        zerolog.newEvent_neg g l.logger zerolog.DebugLevel hs, zerolog.Event.Msg,
        observability.withFields_none]

/-- Level filtering is a threshold on the global level that `NewLogger` sets: on
the returned logger a call of any of the eight emitters passes the filter
exactly when its level is at least that minimum, so a higher minimum suppresses
every strictly lower level and passes every equal or higher one; the names
debug, info, warn and error set the minimum to their own level. -/
theorem level_filter_is_threshold (env : os.Environ) (g : zerolog.Globals) (level : String)
    (now : Nat) (c : observability.Call) :
    ((c.run (observability.NewLogger env g level).2 now
        (observability.NewLogger env g level).1).isSome = true ↔
      (observability.NewLogger env g level).2.gLevel ≤ c.level) ∧
    (observability.NewLogger env g "debug").2.gLevel = zerolog.DebugLevel ∧
    (observability.NewLogger env g "info").2.gLevel = zerolog.InfoLevel ∧
    (observability.NewLogger env g "warn").2.gLevel = zerolog.WarnLevel ∧
    (observability.NewLogger env g "error").2.gLevel = zerolog.ErrorLevel := by
  have hl : zerolog.TraceLevel ≤ c.level := by
    cases c <;> simp only [observability.Call.level] <;> decide
  have hown : (observability.NewLogger env g level).1.logger.level = zerolog.TraceLevel := by
    rw [observability.NewLogger_eq]
  refine ⟨?_, ?_, ?_, ?_, ?_⟩
  · rw [observability.Call.run_eq]
    by_cases hg : (observability.NewLogger env g level).2.gLevel ≤ c.level
    · have hs : zerolog.Logger.should (observability.NewLogger env g level).2
          (observability.NewLogger env g level).1.logger c.level = true := by
        simp only [zerolog.Logger.should, hown]
        rw [if_neg (not_or.2 ⟨not_lt.2 hl, not_lt.2 hg⟩)]
      simp [hs, hg]
    · have hs : zerolog.Logger.should (observability.NewLogger env g level).2
          (observability.NewLogger env g level).1.logger c.level = false := by
        simp only [zerolog.Logger.should, hown]
        rw [if_pos (Or.inr (not_le.1 hg))]
      simp [hs, hg]
  all_goals
    rw [observability.NewLogger_eq]
    rfl

/-- The one error of `Load` is the failure-policy error: `Load` returns an error
exactly when the resolved failure policy is neither "fail-open" nor
"fail-closed", and the error is always the same message. -/
theorem load_fails_only_on_failure_policy (fp : time.FracProduct) (env : os.Environ) :
    ((config.Load fp env).2 ≠ none ↔
      (config.getEnv env "GATEWAY_FAILURE_POLICY" "fail-closed" ≠ "fail-open" ∧
        config.getEnv env "GATEWAY_FAILURE_POLICY" "fail-closed" ≠ "fail-closed")) ∧
    ((config.Load fp env).2 ≠ none →
      (config.Load fp env).2 =
        some "invalid GATEWAY_FAILURE_POLICY: must be 'fail-open' or 'fail-closed'") := by
  rw [config.Load_eq]
  have hp : (config.resolved fp env).Gateway.FailurePolicy =
      config.getEnv env "GATEWAY_FAILURE_POLICY" "fail-closed" := rfl
  rw [hp]
  split
  · rename_i h
    exact ⟨⟨fun _ => h, fun _ => by simp⟩, fun _ => rfl⟩
  · rename_i h
    exact ⟨⟨fun hn => absurd rfl hn, fun hc => absurd hc h⟩, fun hn => absurd rfl hn⟩

/-- With LOG_FORMAT exactly "console", every call of an emitter that passes the
level filter is written to standard output through the console encoder. -/
theorem console_format_writes_to_stdout (env : os.Environ) (g : zerolog.Globals)
    (level : String) (now : Nat) (c : observability.Call)
    (h : os.Getenv env "LOG_FORMAT" = "console") :
    ∀ o, c.run (observability.NewLogger env g level).2 now
        (observability.NewLogger env g level).1 = some o →
      o = zerolog.Outcome.console os.File.Stdout o.record := by
  intro o ho
  have hw := observability.NewLogger_writer env g level
  rw [if_pos h] at hw
  rw [observability.Call.run_eq, hw] at ho
  split at ho
  · simp only [Option.some.injEq] at ho
    rw [← ho]
    rfl
  · exact Option.noConfusion ho

/-- With LOG_FORMAT=console and the level "debug", a Warnf call is written to
standard output in console form. -/
theorem console_format_writes_to_stdout_witness :
    ∃ o, observability.Call.run consoleGlobals 3 consoleLogger
        (observability.Call.Warnf "slow"
          [("ms", zerolog.Operand.marshals (zerolog.Value.int 950))]) = some o ∧
      o = zerolog.Outcome.console os.File.Stdout o.record :=
  ⟨zerolog.Outcome.console os.File.Stdout
      [("level", zerolog.Value.str "warn"), ("ms", zerolog.Value.int 950),
        ("time", zerolog.Value.time 3 time.RFC3339Nano),
        ("message", zerolog.Value.str "slow")],
    by decide,
    console_format_writes_to_stdout envConsole initialGlobals "debug" 3
      (observability.Call.Warnf "slow"
        [("ms", zerolog.Operand.marshals (zerolog.Value.int 950))]) (by decide) _
      (by decide)⟩
